import Mathlib

/-!
Verification development for the `filesystem-daemon` core of the
productivity-service repository: a shallow embedding of the plan data model
(`models.py`), the rule/correction classifier (`rules.py`), the AI plan
builder (`classifier.py`), the plan store (`database.py`), the executor
(`executor.py`) and the `revise` workflow (`cli.py`), together with theorems
about the classification-and-plan lifecycle.

Modelling conventions:
* Python `float` confidences are modelled as `ℚ` (the source only ever
  compares and stores literal decimal values).
* The Python `re` module is treated as external semantics: functions that
  call `re.search(pattern, s, flags)` are parameterised by a match oracle
  `research : Bool → String → String → Bool` (first argument: whether the
  search is case sensitive).  An invalid pattern (`re.error`, which the
  source catches and treats as a non-match) is modelled by the oracle
  returning `false`.
* `datetime.now()` timestamps and generated `uuid4` identifiers are passed
  in as explicit parameters or left at their record defaults; they never
  influence control flow in the embedded code.
* Python exceptions are modelled with `Except String`; a `try`/`except`
  block becomes a `match` on the embedded result.
-/

set_option maxRecDepth 4000

namespace ProductivityService

/-! ## Enums (models.py) -/

inductive FileAction
  | move | delete | archive | skip | rename
  deriving DecidableEq, Repr

def FileAction.value : FileAction → String
  | .move => "move"
  | .delete => "delete"
  | .archive => "archive"
  | .skip => "skip"
  | .rename => "rename"

/-- `FileAction(raw)`: succeeds exactly on the five enum member values,
otherwise Python raises `ValueError`. -/
def FileAction.fromString? : String → Option FileAction
  | "move" => some .move
  | "delete" => some .delete
  | "archive" => some .archive
  | "skip" => some .skip
  | "rename" => some .rename
  | _ => none

inductive FileCategory
  | document | image | video | audio | installer | archiveCat | code
  | trading | receipt | screenshot | download | unknown
  deriving DecidableEq, Repr

def FileCategory.value : FileCategory → String
  | .document => "document"
  | .image => "image"
  | .video => "video"
  | .audio => "audio"
  | .installer => "installer"
  | .archiveCat => "archive"
  | .code => "code"
  | .trading => "trading"
  | .receipt => "receipt"
  | .screenshot => "screenshot"
  | .download => "download"
  | .unknown => "unknown"

def FileCategory.fromString? : String → Option FileCategory
  | "document" => some .document
  | "image" => some .image
  | "video" => some .video
  | "audio" => some .audio
  | "installer" => some .installer
  | "archive" => some .archiveCat
  | "code" => some .code
  | "trading" => some .trading
  | "receipt" => some .receipt
  | "screenshot" => some .screenshot
  | "download" => some .download
  | "unknown" => some .unknown
  | _ => none

inductive LifeDomain
  | finance | family | work | health | property | personal
  deriving DecidableEq, Repr

def LifeDomain.value : LifeDomain → String
  | .finance => "Finance"
  | .family => "Family"
  | .work => "Work"
  | .health => "Health"
  | .property => "Property"
  | .personal => "Personal"

/-- `LifeDomain(raw)`: succeeds exactly on the six member values, otherwise
Python raises `ValueError`. -/
def LifeDomain.fromString? : String → Option LifeDomain
  | "Finance" => some .finance
  | "Family" => some .family
  | "Work" => some .work
  | "Health" => some .health
  | "Property" => some .property
  | "Personal" => some .personal
  | _ => none

inductive PlanStatus
  | pending | approved | executed | rejected | failed | revised
  deriving DecidableEq, Repr

def PlanStatus.value : PlanStatus → String
  | .pending => "pending"
  | .approved => "approved"
  | .executed => "executed"
  | .rejected => "rejected"
  | .failed => "failed"
  | .revised => "revised"

/-! ## JSON values (the `json` module boundary) -/

/-- A parsed JSON value, as produced by `json.loads`. -/
inductive JValue
  | null
  | jbool (b : Bool)
  | num (q : ℚ)
  | str (s : String)
  | arr (elems : List JValue)
  | obj (fields : List (String × JValue))
  deriving Repr

/-- Python truthiness of a JSON-decoded value (`if classification.get("domain")`). -/
def JValue.truthy : JValue → Bool
  | .null => false
  | .jbool b => b
  | .num q => q ≠ 0
  | .str s => s ≠ ""
  | .arr xs => ¬xs.isEmpty
  | .obj fs => ¬fs.isEmpty

/-- `dict.get(key)`: first binding wins (JSON objects parsed by Python keep
the last duplicate key, but the embedded parser never produces duplicates for
the inputs considered). -/
def jGet (fields : List (String × JValue)) (key : String) : Option JValue :=
  (fields.find? (fun kv => kv.1 == key)).map (·.2)

/-! ## Records (models.py) -/

/-- `FilePlan` (models.py).  `created_at`, `executed_at` and `last_applied`
timestamps are carried as ISO strings, matching their persisted form. -/
structure FilePlan where
  id : String := ""
  source_path : String
  action : FileAction
  destination_path : Option String := none
  category : FileCategory := .unknown
  domain : Option LifeDomain := none
  subfolder : Option String := none
  confidence : ℚ := 0
  reasoning : String := ""
  classification_source : String := "rules"
  created_at : String := ""
  status : PlanStatus := .pending
  executed_at : Option String := none
  error_message : Option String := none
  metadata : List (String × JValue) := []
  user_feedback : Option String := none
  original_plan_id : Option String := none
  revision_count : Nat := 0
  suggested_name : Option String := none
  deriving Repr

/-- `Correction` (models.py). -/
structure Correction where
  id : String := ""
  created_at : String := ""
  original_filename : String
  original_action : FileAction
  original_domain : Option LifeDomain := none
  original_subfolder : Option String := none
  corrected_action : FileAction
  corrected_domain : Option LifeDomain := none
  corrected_subfolder : Option String := none
  user_feedback : String
  filename_pattern : Option String := none
  keywords : List String := []
  times_applied : Nat := 0
  last_applied : Option String := none
  deriving Repr, DecidableEq

/-- The configuration fields of `config.Settings` that the embedded code
reads.  `areas_path` is kept as a plain string (default
`~/Dropbox/_Areas`). -/
structure Settings where
  areas_path : String := "~/Dropbox/_Areas"
  ai_confidence_threshold : ℚ := mkRat 8 10
  ignore_hidden : Bool := true
  ignore_patterns : List String :=
    [".DS_Store", ".localized", "*.tmp", "*.part", "*.crdownload", "Icon\r"]
  dry_run : Bool := false
  backup_before_move : Bool := true
  deriving Repr

def defaultSettings : Settings := {}

/-! ## String utilities (Python `str` / `pathlib` operations) -/

/-- Is `needle` a contiguous sublist of `hay`?  Models Python's
`needle in hay` on strings (working on the character lists). -/
def listHasRun (needle : List Char) : List Char → Bool
  | [] => needle.isEmpty
  | c :: rest => needle.isPrefixOf (c :: rest) || listHasRun needle rest

/-- Python `needle in hay` for strings. -/
def strIn (needle hay : String) : Bool :=
  listHasRun needle.data hay.data

/-- Python `hay.endswith(needle)`. -/
def strEndsWith (hay needle : String) : Bool :=
  needle.data.isSuffixOf hay.data

/-- Python `hay.startswith(needle)`. -/
def strStartsWith (hay needle : String) : Bool :=
  needle.data.isPrefixOf hay.data

/-- Python `s.lower()` (ASCII case folding, as used on filenames). -/
def strLower (s : String) : String :=
  ⟨s.data.map Char.toLower⟩

/-- Index of the last occurrence of `needle` in `hay`, scanning character
positions; `none` when absent.  Models Python `hay.rfind(needle)` (which
returns `-1` when absent). -/
def rfindIdx (hay needle : String) : Option Nat :=
  let n := hay.data.length
  (List.range (n + 1)).foldl
    (fun acc i => if needle.data.isPrefixOf (hay.data.drop i) then some i else acc)
    none

/-- Python `s[:k]` (first `k` characters). -/
def strTake (s : String) (k : Nat) : String :=
  ⟨s.data.take k⟩

/-- Index of the last `'.'` in a name, `none` if absent: helper for
`pathlib.PurePath.stem` / `.suffix`. -/
def lastDotIdx (name : String) : Option Nat :=
  rfindIdx name "."

/-- `pathlib` suffix rule: the name splits at the last dot only when
`0 < i < len(name) - 1`. -/
def splitStemSuffix (name : String) : String × String :=
  match lastDotIdx name with
  | some i =>
      if 0 < i ∧ i < name.data.length - 1 then
        (⟨name.data.take i⟩, ⟨name.data.drop i⟩)
      else (name, "")
  | none => (name, "")

/-- Index of the last `'/'` in a path. -/
def lastSlashIdx (p : String) : Option Nat :=
  rfindIdx p "/"

/-- `Path(p).name`: the component after the last slash. -/
def basename (p : String) : String :=
  match lastSlashIdx p with
  | some i => ⟨p.data.drop (i + 1)⟩
  | none => p

/-- `Path(p).parent` rendered back to a string (paths in this development
always contain a slash). -/
def dirname (p : String) : String :=
  match lastSlashIdx p with
  | some i => ⟨p.data.take i⟩
  | none => "."

/-- `parent / name` path join. -/
def pjoin (parent name : String) : String :=
  parent ++ "/" ++ name

/-! ## Decimal numerals

`f"{stem}-{counter}{suffix}"` formats `counter` in decimal.  `natStr` is the
embedding of that formatting; it is defined with explicit fuel so that the
kernel can evaluate it, and proved injective below (needed for the
collision-avoidance law). -/

def digitChar : Nat → Char
  | 0 => '0'
  | 1 => '1'
  | 2 => '2'
  | 3 => '3'
  | 4 => '4'
  | 5 => '5'
  | 6 => '6'
  | 7 => '7'
  | 8 => '8'
  | 9 => '9'
  | _ => '*'

def natDigitsAux : Nat → Nat → List Nat
  | 0, _ => []
  | fuel + 1, n => if n < 10 then [n] else natDigitsAux fuel (n / 10) ++ [n % 10]

/-- The decimal digits of `n` (most significant first). -/
def natDigits (n : Nat) : List Nat := natDigitsAux (n + 1) n

/-- Decimal rendering of a natural number, as produced by an f-string. -/
def natStr (n : Nat) : String := ⟨(natDigits n).map digitChar⟩

def digitsVal (ds : List Nat) : Nat := ds.foldl (fun a d => a * 10 + d) 0

theorem digitsVal_append_last (xs : List Nat) (d : Nat) :
    digitsVal (xs ++ [d]) = digitsVal xs * 10 + d := by
  simp [digitsVal, List.foldl_append]

theorem natDigitsAux_val : ∀ fuel n, n < 10 ^ fuel → digitsVal (natDigitsAux fuel n) = n := by
  intro fuel
  induction fuel with
  | zero =>
      intro n hn
      have hn0 : n = 0 := by omega
      subst hn0
      simp [natDigitsAux, digitsVal]
  | succ f ih =>
      intro n hn
      by_cases h : n < 10
      · simp [natDigitsAux, h, digitsVal]
      · have hdiv : n / 10 < 10 ^ f := by
          rw [Nat.div_lt_iff_lt_mul (by norm_num)]
          calc n < 10 ^ (f + 1) := hn
          _ = 10 ^ f * 10 := by ring
        simp only [natDigitsAux, h, if_false]
        rw [digitsVal_append_last, ih _ hdiv]
        omega

theorem natDigits_val (n : Nat) : digitsVal (natDigits n) = n := by
  have h : n < 10 ^ (n + 1) := by
    calc n < 2 ^ n := Nat.lt_two_pow n
    _ ≤ 10 ^ n := Nat.pow_le_pow_left (by norm_num) n
    _ ≤ 10 ^ (n + 1) := Nat.pow_le_pow_right (by norm_num) (Nat.le_succ n)
  exact natDigitsAux_val _ _ h

theorem natDigitsAux_lt_ten : ∀ fuel n, ∀ d ∈ natDigitsAux fuel n, d < 10 := by
  intro fuel
  induction fuel with
  | zero => intro n d hd; simp [natDigitsAux] at hd
  | succ f ih =>
      intro n d hd
      by_cases h : n < 10
      · simp [natDigitsAux, h] at hd; omega
      · simp only [natDigitsAux, h, if_false, List.mem_append, List.mem_singleton] at hd
        rcases hd with hd | hd
        · exact ih _ _ hd
        · omega

theorem digitChar_inj {a b : Nat} (ha : a < 10) (hb : b < 10)
    (h : digitChar a = digitChar b) : a = b := by
  interval_cases a <;> interval_cases b <;> simp_all [digitChar]

theorem map_digitChar_inj : ∀ (xs ys : List Nat), (∀ d ∈ xs, d < 10) → (∀ d ∈ ys, d < 10) →
    xs.map digitChar = ys.map digitChar → xs = ys := by
  intro xs
  induction xs with
  | nil => intro ys _ _ h; cases ys <;> simp_all
  | cons x xs ih =>
      intro ys hxs hys h
      cases ys with
      | nil => simp_all
      | cons y ys =>
          simp only [List.map_cons, List.cons.injEq] at h
          have hx : x = y := digitChar_inj (hxs x (by simp)) (hys y (by simp)) h.1
          have := ih ys (fun d hd => hxs d (by simp [hd])) (fun d hd => hys d (by simp [hd])) h.2
          simp [hx, this]

theorem natStr_inj : Function.Injective natStr := by
  intro a b h
  have hdata : (natDigits a).map digitChar = (natDigits b).map digitChar := by
    have := congrArg String.data h
    simpa [natStr] using this
  have hd : natDigits a = natDigits b :=
    map_digitChar_inj _ _ (natDigitsAux_lt_ten _ _) (natDigitsAux_lt_ten _ _) hdata
  have := congrArg digitsVal hd
  rwa [natDigits_val, natDigits_val] at this

/-! ## A JSON parser (the `json.loads` boundary)

`classifier.py` feeds the Oracle's response text to `json.loads`.  The
parser below is an executable model of `json.loads` for response texts:
values, arrays, objects, strings with escapes, and decimal numbers.  It is
written with explicit fuel (one unit per grammar step) so that the kernel
can evaluate it on concrete inputs. -/

def isWs (c : Char) : Bool :=
  c = ' ' || c = '\t' || c = '\n' || c = '\r'

def skipWs : List Char → List Char
  | [] => []
  | c :: rest => if isWs c then skipWs rest else c :: rest

def hexVal (c : Char) : Option Nat :=
  if '0' ≤ c ∧ c ≤ '9' then some (c.toNat - 48)
  else if 'a' ≤ c ∧ c ≤ 'f' then some (c.toNat - 87)
  else if 'A' ≤ c ∧ c ≤ 'F' then some (c.toNat - 55)
  else none

/-- Parse the body of a JSON string literal (the opening quote already
consumed), `acc` holding the characters read so far in reverse. -/
def parseStringAux : List Char → List Char → Option (String × List Char)
  | _, [] => none
  | acc, '"' :: rest => some (⟨acc.reverse⟩, rest)
  | acc, '\\' :: 'n' :: rest => parseStringAux ('\n' :: acc) rest
  | acc, '\\' :: 't' :: rest => parseStringAux ('\t' :: acc) rest
  | acc, '\\' :: 'r' :: rest => parseStringAux ('\r' :: acc) rest
  | acc, '\\' :: 'b' :: rest => parseStringAux ('\x08' :: acc) rest
  | acc, '\\' :: 'f' :: rest => parseStringAux ('\x0c' :: acc) rest
  | acc, '\\' :: '"' :: rest => parseStringAux ('"' :: acc) rest
  | acc, '\\' :: '\\' :: rest => parseStringAux ('\\' :: acc) rest
  | acc, '\\' :: '/' :: rest => parseStringAux ('/' :: acc) rest
  | acc, '\\' :: 'u' :: h1 :: h2 :: h3 :: h4 :: rest =>
      match hexVal h1, hexVal h2, hexVal h3, hexVal h4 with
      | some a, some b, some c, some d =>
          parseStringAux (Char.ofNat (((a * 16 + b) * 16 + c) * 16 + d) :: acc) rest
      | _, _, _, _ => none
  | _, '\\' :: _ => none
  | acc, c :: rest => parseStringAux (c :: acc) rest

def digToNat (c : Char) : Option Nat :=
  if '0' ≤ c ∧ c ≤ '9' then some (c.toNat - 48) else none

def takeDigits : List Char → List Nat × List Char
  | [] => ([], [])
  | c :: rest =>
      match digToNat c with
      | some d => let (ds, r) := takeDigits rest; (d :: ds, r)
      | none => ([], c :: rest)

def digitsToNat (ds : List Nat) : Nat := ds.foldl (fun a d => a * 10 + d) 0

def parseExpInt (r : List Char) : Option (Int × List Char) :=
  let (esign, r1) :=
    match r with
    | '+' :: rr => (false, rr)
    | '-' :: rr => (true, rr)
    | _ => (false, r)
  let (eds, r2) := takeDigits r1
  if eds.isEmpty then none
  else some ((if esign then -(digitsToNat eds : Int) else (digitsToNat eds : Int)), r2)

/-- A JSON number `[-]ids[.fds][e|E exp]` denotes
`sign * mantissa * 10 ^ (exp - #fds)`; the value is assembled with a single
`mkRat` so that it is kernel-computable. -/
def parseNumber (cs : List Char) : Option (ℚ × List Char) :=
  let (neg, cs1) := match cs with | '-' :: r => (true, r) | _ => (false, cs)
  let (ids, r1) := takeDigits cs1
  if ids.isEmpty then none
  else
    let fracStep : Option (Nat × Nat × List Char) :=
      match r1 with
      | '.' :: r =>
          let (fds, r2) := takeDigits r
          if fds.isEmpty then none
          else some (digitsToNat ids * 10 ^ fds.length + digitsToNat fds, fds.length, r2)
      | _ => some (digitsToNat ids, 0, r1)
    match fracStep with
    | none => none
    | some (mant, scale, r2) =>
        let expStep : Option (Int × List Char) :=
          match r2 with
          | 'e' :: r => parseExpInt r
          | 'E' :: r => parseExpInt r
          | _ => some (0, r2)
        match expStep with
        | none => none
        | some (e, r3) =>
            let sgn : Int := if neg then -1 else 1
            let net : Int := e - (scale : Int)
            let q : ℚ :=
              if 0 ≤ net then mkRat (sgn * mant * 10 ^ net.toNat) 1
              else mkRat (sgn * mant) (10 ^ (-net).toNat)
            some (q, r3)

/-- Parser mode: a bare value, the tail of an array, or the tail of an
object. -/
inductive PMode
  | value
  | elems (acc : List JValue)
  | fields (acc : List (String × JValue))

def parseF : Nat → PMode → List Char → Option (JValue × List Char)
  | 0, _, _ => none
  | fuel + 1, .value, cs =>
      match skipWs cs with
      | 'n' :: 'u' :: 'l' :: 'l' :: rest => some (.null, rest)
      | 't' :: 'r' :: 'u' :: 'e' :: rest => some (.jbool true, rest)
      | 'f' :: 'a' :: 'l' :: 's' :: 'e' :: rest => some (.jbool false, rest)
      | '"' :: rest => (parseStringAux [] rest).map (fun p => (.str p.1, p.2))
      | '[' :: rest =>
          (match skipWs rest with
           | ']' :: r2 => some (.arr [], r2)
           | r2 => parseF fuel (.elems []) r2)
      | '{' :: rest =>
          (match skipWs rest with
           | '}' :: r2 => some (.obj [], r2)
           | r2 => parseF fuel (.fields []) r2)
      | rest => (parseNumber rest).map (fun p => (.num p.1, p.2))
  | fuel + 1, .elems acc, cs =>
      match parseF fuel .value cs with
      | none => none
      | some (v, rest) =>
          match skipWs rest with
          | ',' :: r2 => parseF fuel (.elems (acc ++ [v])) r2
          | ']' :: r2 => some (.arr (acc ++ [v]), r2)
          | _ => none
  | fuel + 1, .fields acc, cs =>
      match skipWs cs with
      | '"' :: rest =>
          match parseStringAux [] rest with
          | none => none
          | some (k, r1) =>
              match skipWs r1 with
              | ':' :: r2 =>
                  match parseF fuel .value r2 with
                  | none => none
                  | some (v, r3) =>
                      match skipWs r3 with
                      | ',' :: r4 => parseF fuel (.fields (acc ++ [(k, v)])) r4
                      | '}' :: r4 => some (.obj (acc ++ [(k, v)]), r4)
                      | _ => none
              | _ => none
      | _ => none

/-- `json.loads` on a response text: parse one value and require only
whitespace to remain. -/
def jsonParse (s : String) : Except String JValue :=
  match parseF (s.data.length + 1) .value s.data with
  | some (v, rest) => if (skipWs rest).isEmpty then .ok v else .error "Extra data"
  | none => .error "Expecting value"

/-! ## Executor destination computation (executor.py)

`_execute_move` (lines 96-104) and `_execute_rename` resolve a destination
collision with `while dest.exists(): dest = dest.parent / f"{stem}-{counter}{suffix}"`.
The file system is modelled as the list of existing paths; the loop gets
fuel `fs.length + 1`, which the pigeonhole argument below shows is always
enough to reach a free name. -/

def moveCandidate (parent stem suffix : String) (n : Nat) : String :=
  pjoin parent (stem ++ "-" ++ natStr n ++ suffix)

def findFreeName (fs : List String) (parent stem suffix : String) :
    Nat → Nat → String
  | 0, c => moveCandidate parent stem suffix c
  | fuel + 1, c =>
      let cand := moveCandidate parent stem suffix c
      if cand ∈ fs then findFreeName fs parent stem suffix fuel (c + 1) else cand

/-- The destination actually used by `_execute_move` / `_execute_rename`
once the initial destination is known: if it exists, append `-{n}`
(n = 1, 2, ...) to the filename stem until the name is free. -/
def resolveMoveDest (fs : List String) (dest : String) : String :=
  if dest ∈ fs then
    let (stem, suffix) := splitStemSuffix (basename dest)
    findFreeName fs (dirname dest) stem suffix (fs.length + 1) 1
  else dest

/-- The destination used by `_execute_archive` (executor.py lines 137-147):
archive into `{areas}/Personal/Archive`; on collision append a single
`_{timestamp}` to the stem (no retry loop). -/
def archiveDest (st : Settings) (fs : List String) (sourceName ts : String) :
    String :=
  let archivePath := st.areas_path ++ "/Personal" ++ "/Archive"
  let dest := pjoin archivePath sourceName
  if dest ∈ fs then
    let (stem, suffix) := splitStemSuffix sourceName
    pjoin archivePath (stem ++ "_" ++ ts ++ suffix)
  else dest

/-! ### Collision-law lemmas -/

theorem strData_inj {a b : String} (h : a.data = b.data) : a = b := by
  cases a; cases b; exact congrArg String.mk h

theorem moveCandidate_inj (parent stem suffix : String) :
    Function.Injective (moveCandidate parent stem suffix) := by
  intro m n h
  apply natStr_inj
  apply strData_inj
  unfold moveCandidate pjoin at h
  have hd := congrArg String.data h
  simp only [String.data_append, List.append_assoc] at hd
  have h1 := List.append_cancel_left hd
  have h2 := List.append_cancel_left h1
  have h3 := List.append_cancel_left h2
  have h4 := List.append_cancel_left h3
  exact List.append_cancel_right h4

theorem findFreeName_free (fs : List String) (parent stem suffix : String) :
    ∀ fuel c, (∃ j, j < fuel ∧ moveCandidate parent stem suffix (c + j) ∉ fs) →
      findFreeName fs parent stem suffix fuel c ∉ fs ∧
      ∃ j₀, findFreeName fs parent stem suffix fuel c =
          moveCandidate parent stem suffix (c + j₀) ∧
        ∀ i, i < j₀ → moveCandidate parent stem suffix (c + i) ∈ fs := by
  intro fuel
  induction fuel with
  | zero =>
      intro c h
      obtain ⟨j, hj, _⟩ := h
      omega
  | succ f ih =>
      intro c h
      by_cases hc : moveCandidate parent stem suffix c ∈ fs
      · obtain ⟨j, hj, hfree⟩ := h
        have hj0 : j ≠ 0 := by
          intro h0; rw [h0] at hfree; simp at hfree; exact hfree hc
        have hnext : ∃ j', j' < f ∧ moveCandidate parent stem suffix ((c + 1) + j') ∉ fs := by
          refine ⟨j - 1, by omega, ?_⟩
          have : (c + 1) + (j - 1) = c + j := by omega
          rw [this]; exact hfree
        have hrec := ih (c + 1) hnext
        have hstep : findFreeName fs parent stem suffix (f + 1) c =
            findFreeName fs parent stem suffix f (c + 1) := by
          simp [findFreeName, hc]
        rw [hstep]
        refine ⟨hrec.1, ?_⟩
        obtain ⟨j₀, heq, hbefore⟩ := hrec.2
        refine ⟨j₀ + 1, by rw [heq]; ring_nf, ?_⟩
        intro i hi
        rcases Nat.eq_zero_or_pos i with hi0 | hipos
        · rw [hi0]; simpa using hc
        · have : c + i = (c + 1) + (i - 1) := by omega
          rw [this]
          exact hbefore (i - 1) (by omega)
      · have hstep : findFreeName fs parent stem suffix (f + 1) c =
            moveCandidate parent stem suffix c := by
          simp [findFreeName, hc]
        rw [hstep]
        exact ⟨hc, 0, by simp, by omega⟩

theorem exists_free_candidate (fs : List String) (parent stem suffix : String) :
    ∃ j, j < fs.length + 1 ∧ moveCandidate parent stem suffix (1 + j) ∉ fs := by
  by_contra hall
  push_neg at hall
  set f : Nat → String := fun j => moveCandidate parent stem suffix (1 + j) with hf
  have hinj : Function.Injective f := by
    intro a b hab
    have := moveCandidate_inj parent stem suffix hab
    omega
  set l : List String := (List.range (fs.length + 1)).map f with hl
  have hnd : l.Nodup := (List.nodup_range _).map hinj
  have hsub : ∀ x ∈ l, x ∈ fs := by
    intro x hx
    rw [hl, List.mem_map] at hx
    obtain ⟨j, hj, rfl⟩ := hx
    rw [List.mem_range] at hj
    exact hall j hj
  have hcard : l.length = fs.length + 1 := by simp [hl]
  have h1 : l.toFinset.card = fs.length + 1 := by
    rw [List.toFinset_card_of_nodup hnd, hcard]
  have h2 : l.toFinset ⊆ fs.toFinset := by
    intro x hx
    rw [List.mem_toFinset] at hx ⊢
    exact hsub x hx
  have h3 : l.toFinset.card ≤ fs.toFinset.card := Finset.card_le_card h2
  have h4 : fs.toFinset.card ≤ fs.length := fs.toFinset_card_le
  omega

/-- The move/rename collision loop never lands on an existing file, and, on
collision, picks the first free `-{n}` candidate. -/
theorem resolveMoveDest_spec (fs : List String) (dest : String) :
    resolveMoveDest fs dest ∉ fs ∧
    (dest ∈ fs →
      ∃ n, 1 ≤ n ∧
        resolveMoveDest fs dest =
          moveCandidate (dirname dest) (splitStemSuffix (basename dest)).1
            (splitStemSuffix (basename dest)).2 n ∧
        ∀ m, 1 ≤ m → m < n →
          moveCandidate (dirname dest) (splitStemSuffix (basename dest)).1
            (splitStemSuffix (basename dest)).2 m ∈ fs) := by
  by_cases hd : dest ∈ fs
  · have hex := exists_free_candidate fs (dirname dest)
      (splitStemSuffix (basename dest)).1 (splitStemSuffix (basename dest)).2
    obtain ⟨j, hj, hfree⟩ := hex
    have hspec := findFreeName_free fs (dirname dest)
      (splitStemSuffix (basename dest)).1 (splitStemSuffix (basename dest)).2
      (fs.length + 1) 1 ⟨j, hj, hfree⟩
    have hres : resolveMoveDest fs dest =
        findFreeName fs (dirname dest) (splitStemSuffix (basename dest)).1
          (splitStemSuffix (basename dest)).2 (fs.length + 1) 1 := by
      simp [resolveMoveDest, hd]
    constructor
    · rw [hres]; exact hspec.1
    · intro _
      obtain ⟨j₀, heq, hbefore⟩ := hspec.2
      refine ⟨1 + j₀, by omega, by rw [hres, heq], ?_⟩
      intro m h1m hmn
      have : m = 1 + (m - 1) := by omega
      rw [this]
      exact hbefore (m - 1) (by omega)
  · constructor
    · simp [resolveMoveDest, hd]
    · intro h; exact absurd h hd

/-! ## Plan store (database.py)

The SQLite tables are modelled as lists of records; row updates become
`List.map`.  `ORDER BY` clauses are modelled by stable insertion sorts. -/

def getPlan (db : List FilePlan) (planId : String) : Option FilePlan :=
  db.find? (fun p => p.id == planId)

/-- `INSERT OR REPLACE` keyed on the primary key `id`. -/
def savePlan (db : List FilePlan) (p : FilePlan) : List FilePlan :=
  if db.any (fun q => q.id == p.id) then
    db.map (fun q => if q.id == p.id then p else q)
  else db ++ [p]

/-- `update_plan_status`: sets `status`, stamps `executed_at` only for
`executed`, and overwrites `error_message` with the given value (`None` by
default in the source). -/
def updatePlanStatus (db : List FilePlan) (planId : String) (status : PlanStatus)
    (errorMessage : Option String) (now : String) : List FilePlan :=
  db.map (fun p =>
    if p.id == planId then
      { p with
        status := status
        executed_at := if status = .executed then some now else none
        error_message := errorMessage }
    else p)

def getPlansByStatus (db : List FilePlan) (status : PlanStatus) : List FilePlan :=
  db.filter (fun p => p.status == status)

def saveCorrection (cs : List Correction) (c : Correction) : List Correction :=
  if cs.any (fun q => q.id == c.id) then
    cs.map (fun q => if q.id == c.id then c else q)
  else cs ++ [c]

def incrementCorrectionUsage (cs : List Correction) (cid : String) (now : String) :
    List Correction :=
  cs.map (fun c =>
    if c.id == cid then { c with times_applied := c.times_applied + 1, last_applied := some now }
    else c)

/-- Does `y` sort strictly after `x` under
`ORDER BY times_applied DESC, created_at DESC`? -/
def corrAfter (y x : Correction) : Bool :=
  y.times_applied < x.times_applied ||
    (y.times_applied == x.times_applied && decide (y.created_at < x.created_at))

def insertCorrDesc (x : Correction) : List Correction → List Correction
  | [] => [x]
  | y :: ys => if corrAfter y x then x :: y :: ys else y :: insertCorrDesc x ys

/-- `get_all_corrections`: the corrections table ordered by most used. -/
def getAllCorrections (store : List Correction) : List Correction :=
  store.foldl (fun acc c => insertCorrDesc c acc) []

/-- The relevance score of `get_relevant_corrections` (database.py lines
376-398): 2 per keyword contained in the filename, 5 for a regex match,
3 when the original filename is contained in this filename. -/
def corrScore (research : Bool → String → String → Bool)
    (filenameLower filename : String) (c : Correction) : Nat :=
  2 * (c.keywords.filter (fun kw => strIn (strLower kw) filenameLower)).length +
    (match c.filename_pattern with
     | some p => if p ≠ "" && research false p filename then 5 else 0
     | none => 0) +
    (if strIn (strLower c.original_filename) filenameLower then 3 else 0)

def insertScoreDesc (x : Nat × Correction) :
    List (Nat × Correction) → List (Nat × Correction)
  | [] => [x]
  | y :: ys => if y.1 < x.1 then x :: y :: ys else y :: insertScoreDesc x ys

/-- `get_relevant_corrections(filename, limit)`: positive-scoring
corrections, stably sorted by score descending, truncated to `limit`. -/
def getRelevantCorrections (research : Bool → String → String → Bool)
    (store : List Correction) (filename : String) (limit : Nat) : List Correction :=
  let fl := strLower filename
  let scored := (getAllCorrections store).foldl
    (fun acc c =>
      let s := corrScore research fl filename c
      if s > 0 then acc ++ [(s, c)] else acc) []
  ((scored.foldl (fun acc x => insertScoreDesc x acc) []).take limit).map (·.2)

/-! ## Static rule engine (rules.py) -/

structure ClassificationRule where
  name : String
  patterns : List String
  category : FileCategory
  action : FileAction
  domain : Option LifeDomain := none
  subfolder : Option String := none
  confidence : ℚ := mkRat 9 10
  case_sensitive : Bool := false
  deriving Repr

/-- A rule matches when any of its patterns matches (`re.search`). -/
def ruleMatches (research : Bool → String → String → Bool)
    (r : ClassificationRule) (filename : String) : Bool :=
  r.patterns.any (fun p => research r.case_sensitive p filename)

/-- The `RULES` list of rules.py, verbatim (patterns kept as their regex
source text; `\x7b`/`\x7d` denote the brace characters). -/
def RULES : List ClassificationRule := [
  { name := "mac_installers", patterns := ["\\.dmg$", "\\.pkg$"],
    category := .installer, action := .delete, confidence := mkRat 95 100 },
  { name := "windows_installers", patterns := ["\\.exe$", "\\.msi$"],
    category := .installer, action := .delete, confidence := mkRat 95 100 },
  { name := "temp_files", patterns := ["\\.tmp$", "\\.part$", "\\.crdownload$", "~$"],
    category := .download, action := .delete, confidence := mkRat 95 100 },
  { name := "windows_artifacts",
    patterns := ["\\$RECYCLE\\.BIN", "desktop\\.ini", "Thumbs\\.db"],
    category := .unknown, action := .delete, confidence := mkRat 95 100 },
  { name := "archive_files",
    patterns := ["\\.zip$", "\\.tar\\.gz$", "\\.tgz$", "\\.rar$", "\\.7z$"],
    category := .archiveCat, action := .archive, domain := some .personal,
    subfolder := some "Archive", confidence := mkRat 7 10 },
  { name := "trading_research",
    patterns := ["SA2", "42Macro", "Factor", "trading", "backtest", "strategy"],
    category := .trading, action := .move, domain := some .finance,
    subfolder := some "Research", confidence := mkRat 85 100 },
  { name := "financial_statements",
    patterns := ["statement", "invoice", "tax.*\\d\x7b4\x7d", "1099", "W-?2",
      "bank.*statement"],
    category := .document, action := .move, domain := some .finance,
    subfolder := some "Documents", confidence := mkRat 85 100 },
  { name := "receipts", patterns := ["receipt", "order.*confirm", "purchase"],
    category := .receipt, action := .move, domain := some .personal,
    subfolder := some "Documents", confidence := mkRat 8 10 },
  { name := "health_documents",
    patterns := ["BP_Log", "blood.*pressure", "medical", "prescription",
      "lab.*results", "doctor", "health"],
    category := .document, action := .move, domain := some .health,
    subfolder := some "Documents", confidence := mkRat 9 10 },
  { name := "work_documents",
    patterns := ["resume", "cv", "cover.*letter", "job.*application"],
    category := .document, action := .move, domain := some .work,
    subfolder := some "Documents", confidence := mkRat 85 100 },
  { name := "learning_materials",
    patterns := ["course", "tutorial", "ebook", "\\.epub$"],
    category := .document, action := .move, domain := some .work,
    subfolder := some "Learning", confidence := mkRat 8 10 },
  { name := "property_documents",
    patterns := ["mortgage", "deed", "property.*tax", "HOA", "home.*insurance",
      "18199"],
    category := .document, action := .move, domain := some .property,
    subfolder := some "Documents", confidence := mkRat 9 10 },
  { name := "family_documents",
    patterns := ["birth.*cert", "passport", "social.*security", "marriage",
      "school.*report"],
    category := .document, action := .move, domain := some .family,
    subfolder := some "Documents", confidence := mkRat 9 10 },
  { name := "macos_screenshots_delete",
    patterns := ["^Screenshot[ \u00a0]+\\d\x7b4\x7d-\\d\x7b2\x7d-\\d\x7b2\x7d[ \u00a0]+at[ \u00a0]+\\d\x7b1,2\x7d\\.\\d\x7b2\x7d(\\.\\d\x7b2\x7d)?([ \u00a0\u202f]+(AM|PM))?\\.png$"],
    category := .screenshot, action := .delete, confidence := mkRat 95 100 },
  { name := "screenshots",
    patterns := ["screenshot", "Screen Shot", "Screenshot \\d\x7b4\x7d", "CleanShot"],
    category := .screenshot, action := .move, domain := some .personal,
    subfolder := some "Media", confidence := mkRat 9 10 },
  { name := "images",
    patterns := ["\\.jpg$", "\\.jpeg$", "\\.png$", "\\.gif$", "\\.heic$"],
    category := .image, action := .move, domain := some .personal,
    subfolder := some "Media", confidence := mkRat 6 10 },
  { name := "videos",
    patterns := ["\\.mp4$", "\\.mov$", "\\.avi$", "\\.mkv$", "\\.m4v$"],
    category := .video, action := .move, domain := some .personal,
    subfolder := some "Media", confidence := mkRat 6 10 },
  { name := "audio",
    patterns := ["\\.mp3$", "\\.wav$", "\\.m4a$", "\\.aac$", "\\.flac$"],
    category := .audio, action := .move, domain := some .personal,
    subfolder := some "Media", confidence := mkRat 6 10 },
  { name := "code_files",
    patterns := ["\\.py$", "\\.js$", "\\.ts$", "\\.java$", "\\.cpp$", "\\.c$",
      "\\.rs$", "\\.go$"],
    category := .code, action := .move, domain := some .work,
    subfolder := some "Projects", confidence := mkRat 7 10 },
  { name := "pdf_documents", patterns := ["\\.pdf$"],
    category := .document, action := .move, domain := none,
    subfolder := some "Documents", confidence := mkRat 5 10 },
  { name := "office_documents",
    patterns := ["\\.docx?$", "\\.xlsx?$", "\\.pptx?$", "\\.pages$", "\\.numbers$"],
    category := .document, action := .move, domain := none,
    subfolder := some "Documents", confidence := mkRat 5 10 }]

/-- `_should_ignore` (rules.py lines 419-427). -/
def shouldIgnore (st : Settings) (filename : String) : Bool :=
  st.ignore_patterns.any (fun pat =>
    if strStartsWith pat "*" then strEndsWith filename ⟨pat.data.drop 1⟩
    else strIn pat filename) ||
  (strStartsWith filename "." && st.ignore_hidden)

/-- How a stored Correction matched a filename in `classify_file`:
by its regex pattern or by at least two of its keywords. -/
inductive CorrHit
  | regex | keyw
  deriving DecidableEq, Repr

/-- The per-correction test of `classify_file` (rules.py lines 320-354):
a truthy `filename_pattern` that `re.search`-matches wins; otherwise at
least two keywords contained in the lowercased filename.  A pattern that
raises `re.error` is modelled by the oracle returning `false`. -/
def correctionMatch (research : Bool → String → String → Bool)
    (filename : String) (c : Correction) : Option CorrHit :=
  let regexHit :=
    match c.filename_pattern with
    | some p => p ≠ "" && research false p filename
    | none => false
  if regexHit then some .regex
  else
    let fl := strLower filename
    let cnt := (c.keywords.filter (fun kw => strIn (strLower kw) fl)).length
    if !c.keywords.isEmpty && cnt ≥ 2 then some .keyw else none

/-- Destination for a Plan built from a Correction: only a `move` with a
corrected domain gets one (rules.py lines 328-335 and 356-363). -/
def correctionDestination (st : Settings) (c : Correction) (filename : String) :
    Option String :=
  if c.corrected_action = .move then
    match c.corrected_domain with
    | some d =>
        some (pjoin (pjoin (pjoin st.areas_path d.value)
          (c.corrected_subfolder.getD "Documents")) filename)
    | none => none
  else none

def planFromCorrection (st : Settings) (filePath filename : String)
    (c : Correction) (hit : CorrHit) : FilePlan :=
  match hit with
  | .regex =>
      { source_path := filePath, action := c.corrected_action,
        destination_path := correctionDestination st c filename,
        category := .document, domain := c.corrected_domain,
        subfolder := c.corrected_subfolder, confidence := mkRat 95 100,
        reasoning := "Matched learned pattern from correction: " ++
          strTake c.user_feedback 50,
        classification_source := "learned" }
  | .keyw =>
      { source_path := filePath, action := c.corrected_action,
        destination_path := correctionDestination st c filename,
        category := .document, domain := c.corrected_domain,
        subfolder := c.corrected_subfolder, confidence := mkRat 85 100,
        reasoning := "Matched learned keywords: " ++
          String.intercalate ", " (c.keywords.take 3),
        classification_source := "learned" }

/-- The learned-corrections loop of `classify_file`: the first matching
correction yields a Plan and the id to pass to
`increment_correction_usage`. -/
def correctionStage (st : Settings) (research : Bool → String → String → Bool)
    (filePath filename : String) : List Correction → Option (FilePlan × String)
  | [] => none
  | c :: rest =>
      match correctionMatch research filename c with
      | some hit => some (planFromCorrection st filePath filename c hit, c.id)
      | none => correctionStage st research filePath filename rest

/-- The matching rule with the strictly highest confidence, first-defined
winning ties (rules.py lines 379-383, `best_confidence` starting at 0). -/
def bestRule (research : Bool → String → String → Bool) (filename : String) :
    Option ClassificationRule :=
  (RULES.foldl
    (fun (acc : Option ClassificationRule × ℚ) r =>
      if ruleMatches research r filename && decide (acc.2 < r.confidence) then
        (some r, r.confidence)
      else acc)
    (none, 0)).1

/-- Destination for a rule-built Plan: only `move` with a domain (rules.py
lines 386-394). -/
def ruleDestination (st : Settings) (r : ClassificationRule) (filename : String) :
    Option String :=
  if r.action = .move then
    match r.domain with
    | some d =>
        some (pjoin (pjoin (pjoin st.areas_path d.value)
          (r.subfolder.getD "Documents")) filename)
    | none => none
  else none

/-- `classify_file` (rules.py lines 290-416).  `dbOk = false` models the
`except` branch around the corrections lookup (database unavailable):
the learned stage is skipped silently.  The second component lists the
correction ids passed to `increment_correction_usage`. -/
def classifyFile (st : Settings) (research : Bool → String → String → Bool)
    (dbOk : Bool) (store : List Correction) (filePath : String) :
    FilePlan × List String :=
  let filename := basename filePath
  if shouldIgnore st filename then
    ({ source_path := filePath, action := .skip, category := .unknown,
       confidence := 1, reasoning := "File matches ignore pattern",
       classification_source := "rules" }, [])
  else
    let corrHit :=
      if dbOk then
        correctionStage st research filePath filename
          (getRelevantCorrections research store filename 5)
      else none
    match corrHit with
    | some (plan, cid) => (plan, [cid])
    | none =>
        match bestRule research filename with
        | some r =>
            ({ source_path := filePath, action := r.action,
               destination_path := ruleDestination st r filename,
               category := r.category, domain := r.domain,
               subfolder := r.subfolder, confidence := r.confidence,
               reasoning := "Matched rule: " ++ r.name,
               classification_source := "rules" }, [])
        | none =>
            ({ source_path := filePath, action := .skip, category := .unknown,
               confidence := 0,
               reasoning := "No matching rule found - needs AI classification",
               classification_source := "rules" }, [])

/-- `needs_ai_classification` (rules.py lines 430-440). -/
def needsAiClassification (st : Settings) (plan : FilePlan) : Bool :=
  decide (plan.confidence < st.ai_confidence_threshold) || plan.domain.isNone ||
    plan.category == .unknown

/-! ## AI plan builder (classifier.py)

The Bedrock transport (`invoke_model` plus the response-body envelope) is
abstracted as an oracle outcome `Except String String`: either the
response content text or a raised exception's message.  Everything from
the fence stripping onward is embedded from the source. -/

/-- Python's `\s` class (`re` module, ASCII view). -/
def isPyWs (c : Char) : Bool :=
  c = ' ' || c = '\t' || c = '\n' || c = '\r' || c = '\x0b' || c = '\x0c'

def trimBoth (s : String) : String :=
  ⟨((s.data.dropWhile isPyWs).reverse.dropWhile isPyWs).reverse⟩

/-- First index at which `needle` occurs in `hay`. -/
def firstRunIdx (needle : List Char) : List Char → Option Nat
  | [] => if needle.isEmpty then some 0 else none
  | c :: rest =>
      if needle.isPrefixOf (c :: rest) then some 0
      else (firstRunIdx needle rest).map (· + 1)

/-- The match group of `re.search(r"```(?:json)?\s*(.*?)\s*```", content,
re.DOTALL)`: the text between the first fence (with an optional `json` tag)
and the next fence, trimmed; `none` when no closing fence follows. -/
def fenceInner (content : String) : Option String :=
  match firstRunIdx "```".data content.data with
  | none => none
  | some i =>
      let rest := content.data.drop (i + 3)
      let rest2 := if "json".data.isPrefixOf rest then rest.drop 4 else rest
      match firstRunIdx "```".data rest2 with
      | none => none
      | some j => some (trimBoth ⟨rest2.take j⟩)

/-- Fence stripping in `classify_with_ai` (classifier.py lines 271-274):
the `re.search` result is assigned to `content` itself, so a present fence
with no closing fence leaves `content = None` and the later `json.loads`
raises a `TypeError`. -/
def stripFencesSingle (content : String) : Except String String :=
  if strIn "```" content then
    match fenceInner content with
    | some inner => .ok inner
    | none => .error "the JSON object must be str, bytes or bytearray, not NoneType"
  else .ok content

/-- Fence stripping in `classify_batch_with_ai` and
`extract_correction_pattern`: the match is bound separately, so a failed
search leaves the content unchanged. -/
def stripFencesBatch (content : String) : String :=
  if strIn "```" content then (fenceInner content).getD content else content

def asObj : JValue → Except String (List (String × JValue))
  | .obj fields => .ok fields
  | _ => .error "object has no attribute get"

/-- Python truthiness of `v` combined with `v != "null"`. -/
def jTruthyNotNullStr (v : JValue) : Bool :=
  v.truthy && !(match v with | .str s => s == "null" | _ => false)

/-- `value or default` for a field used as a path component: falsy values
fall back to the default, truthy non-strings raise in the path join. -/
def jOrDefaultStr (v : Option JValue) (dflt : String) : Except String String :=
  match v with
  | none => .ok dflt
  | some w =>
      if w.truthy then
        match w with
        | .str s => .ok s
        | _ => .error "unsupported operand type for path join"
      else .ok dflt

/-- A field stored into a `str | None` model slot. -/
def jOptStr : Option JValue → Except String (Option String)
  | none => .ok none
  | some .null => .ok none
  | some (.str s) => .ok (some s)
  | some _ => .error "validation error: str expected"

/-- A field stored into a `str` slot with a default when absent. -/
def jStrOr (v : Option JValue) (dflt : String) : Except String String :=
  match v with
  | none => .ok dflt
  | some (.str s) => .ok s
  | some _ => .error "validation error: str expected"

/-- Python `float(v)`. -/
def jToFloat : JValue → Except String ℚ
  | .num q => .ok q
  | .jbool b => .ok (if b then 1 else 0)
  | .str s =>
      (match parseNumber (skipWs s.data) with
       | some (q, r) =>
           if (skipWs r).isEmpty then .ok q
           else .error "could not convert string to float"
       | none => .error "could not convert string to float")
  | _ => .error "float() argument must be a string or a real number"

/-- `FileAction(classification["action"])`: `KeyError` when absent,
`ValueError` off the enum. -/
def jAction (fields : List (String × JValue)) : Except String FileAction :=
  match jGet fields "action" with
  | none => .error "KeyError: action"
  | some (.str s) =>
      match FileAction.fromString? s with
      | some a => .ok a
      | none => .error (s ++ " is not a valid FileAction")
  | some _ => .error "is not a valid FileAction"

/-- `FileCategory(classification.get("category", "unknown"))`. -/
def jCategory (fields : List (String × JValue)) : Except String FileCategory :=
  match (jGet fields "category").getD (.str "unknown") with
  | .str s =>
      match FileCategory.fromString? s with
      | some c => .ok c
      | none => .error (s ++ " is not a valid FileCategory")
  | _ => .error "is not a valid FileCategory"

/-- `classification.get("index", 1) - 1` (classifier.py line 516): numbers
and booleans support the subtraction, anything else raises `TypeError`. -/
def batchIdx (fields : List (String × JValue)) : Except String ℚ :=
  match (jGet fields "index").getD (.num 1) with
  | .num q => .ok (mkRat (q.num - q.den) q.den)
  | .jbool b => .ok (if b then 0 else mkRat (-1) 1)
  | _ => .error "unsupported operand type for -"

/-- The classification fields shared by the single and batch Plan
constructors: action, category, confidence, reasoning, suggested name and
the raw subfolder, each with its raise behaviour. -/
def parseCommonFields (fields : List (String × JValue)) :
    Except String (FileAction × FileCategory × ℚ × String × Option String × Option String) := do
  let action ← jAction fields
  let category ← jCategory fields
  let confidence ← jToFloat ((jGet fields "confidence").getD (.num (mkRat 8 10)))
  let reasoning ← jStrOr (jGet fields "reasoning") "AI classification"
  let suggestedName ← jOptStr (jGet fields "suggested_name")
  let subfolderField ← jOptStr (jGet fields "subfolder")
  pure (action, category, confidence, reasoning, suggestedName, subfolderField)

/-- Domain/destination resolution in `classify_with_ai` (classifier.py
lines 278-286).  Note there is no alias table here: the raw domain string
goes straight to the `LifeDomain` constructor, and any unknown value raises
`ValueError` into the enclosing `except`. -/
def singleDomDest (st : Settings) (fields : List (String × JValue))
    (filename : String) : Except String (Option LifeDomain × Option String) :=
  match jGet fields "domain" with
  | some w =>
      if jTruthyNotNullStr w then
        match w with
        | .str s =>
            match LifeDomain.fromString? s with
            | some d => do
                let sub ← jOrDefaultStr (jGet fields "subfolder") "Documents"
                pure (some d,
                  some (pjoin (pjoin (pjoin st.areas_path d.value) sub) filename))
            | none => .error (s ++ " is not a valid LifeDomain")
        | _ => .error "is not a valid LifeDomain"
      else pure (none, none)
  | none => pure (none, none)

/-- Plan construction in `classify_with_ai` (classifier.py lines 276-307). -/
def buildSinglePlan (st : Settings) (freshId : String) (filePath : String)
    (existing : Option FilePlan) (feedback : Option String) (v : JValue) :
    Except String FilePlan := do
  let fields ← asObj v
  let filename := basename filePath
  let (domain, destination) ← singleDomDest st fields filename
  let (action, category, confidence, reasoning, suggestedName, subfolderField) ←
    parseCommonFields fields
  pure
    { id := freshId, source_path := filePath, action := action,
      destination_path := destination,
      category := category, domain := domain, subfolder := subfolderField,
      confidence := confidence, reasoning := reasoning,
      classification_source := "ai", user_feedback := feedback,
      original_plan_id := existing.map (·.id),
      revision_count := match existing with | some e => e.revision_count + 1 | none => 0,
      suggested_name := suggestedName,
      metadata :=
        [("extracted_pattern", (jGet fields "extracted_pattern").getD .null),
         ("extracted_keywords", (jGet fields "extracted_keywords").getD (.arr []))] }

/-- Everything inside the `try` of `classify_with_ai`, from the oracle call
to the constructed Plan. -/
def singlePipeline (st : Settings) (freshId : String) (filePath : String)
    (existing : Option FilePlan) (feedback : Option String)
    (oracle : Except String String) : Except String FilePlan := do
  let content ← oracle
  let content2 ← stripFencesSingle content
  let v ← jsonParse content2
  buildSinglePlan st freshId filePath existing feedback v

/-- The degraded Plan built in the `except` branches of both classifier
entry points.  `freshId` models the `uuid4()[:8]` default id. -/
def failPlan (freshId : String) (filePath : String) (feedback : Option String)
    (e : String) : FilePlan :=
  { id := freshId, source_path := filePath, action := .skip, category := .unknown,
    confidence := 0, reasoning := "AI classification failed: " ++ e,
    classification_source := "ai", user_feedback := feedback }

/-- `classify_with_ai` (classifier.py lines 129-323).  `freshId` is the
`uuid4()[:8]` id the created Plan receives. -/
def classifyWithAI (st : Settings) (freshId : String) (oracle : Except String String)
    (filePath : String) (existing : Option FilePlan) (feedback : Option String) :
    FilePlan :=
  match singlePipeline st freshId filePath existing feedback oracle with
  | .ok p => p
  | .error e => failPlan freshId filePath feedback e

/-- The truncation-salvage parse of `classify_batch_with_ai` (classifier.py
lines 479-494): on a parse error, cut at the last `"\x7d,"`, close the array
and re-parse; re-raise the original error when that fails or when there is
no such cut point (`rfind` must return an index strictly greater than 0). -/
def salvageParse (content : String) : Except String JValue :=
  match jsonParse content with
  | .ok v => .ok v
  | .error e =>
      match rfindIdx content "\x7d," with
      | some idx =>
          if idx > 0 then
            match jsonParse (strTake content (idx + 1) ++ "]") with
            | .ok v => .ok v
            | .error _ => .error e
          else .error e
      | none => .error e

/-- Valid-domain lookup plus the alias table of `classify_batch_with_ai`
(classifier.py lines 496-511), defaulting to Personal. -/
def domainAliases : List (String × String) :=
  [("Travel", "Personal"), ("Education", "Work"), ("Legal", "Finance"),
   ("Medical", "Health"), ("Insurance", "Finance"), ("Automotive", "Property"),
   ("Vehicle", "Property"), ("Car", "Property"), ("Home", "Property"),
   ("Kids", "Family"), ("Children", "Family")]

def mapBatchDomainStr (raw : String) : LifeDomain :=
  match LifeDomain.fromString? raw with
  | some d => d
  | none =>
      match (domainAliases.find? (fun kv => kv.1 == raw)).map (·.2) with
      | some m => (LifeDomain.fromString? m).getD .personal
      | none => .personal

/-- Domain resolution in the batch loop; a truthy non-string raw value
falls through both dict membership tests to the Personal default. -/
def mapBatchDomain : JValue → LifeDomain
  | .str s => mapBatchDomainStr s
  | _ => .personal

/-- Domain/destination resolution in the batch loop (classifier.py lines
523-545): valid/aliased/defaulted domain, `subfolder or "Documents"`,
`suggested_name or filename`. -/
def batchDomDest (st : Settings) (fields : List (String × JValue))
    (filename : String) : Except String (Option LifeDomain × Option String) :=
  match jGet fields "domain" with
  | some w =>
      if jTruthyNotNullStr w then do
        let d := mapBatchDomain w
        let sub ← jOrDefaultStr (jGet fields "subfolder") "Documents"
        let destFilename ← jOrDefaultStr (jGet fields "suggested_name") filename
        pure (some d,
          some (pjoin (pjoin (pjoin st.areas_path d.value) sub) destFilename))
      else pure (none, none)
  | none => pure (none, none)

/-- One iteration of the plan-building loop of `classify_batch_with_ai`
(lines 514-559); `.ok none` is the `continue` taken for an out-of-range
index.  A non-integral index raises `TypeError` at `file_paths[idx]`.
Batch-built Plans keep the default (uuid) id, which no claim depends on. -/
def buildBatchPlan (st : Settings) (files : List String) (cls : JValue) :
    Except String (Option FilePlan) :=
  match asObj cls with
  | .error e => .error e
  | .ok fields =>
      match batchIdx fields with
      | .error e => .error e
      | .ok idxQ =>
          if idxQ < 0 ∨ (files.length : ℚ) ≤ idxQ then .ok none
          else if idxQ.den = 1 then
            let filePath := (files.get? idxQ.num.toNat).getD ""
            let filename := basename filePath
            (do
              let (domain, destination) ← batchDomDest st fields filename
              let (action, category, confidence, reasoning, suggestedName, subfolderField) ←
                parseCommonFields fields
              pure (some
                { source_path := filePath, action := action,
                  destination_path := destination,
                  category := category, domain := domain, subfolder := subfolderField,
                  confidence := confidence, reasoning := reasoning,
                  classification_source := "ai", suggested_name := suggestedName }))
          else .error "list indices must be integers"

def buildBatchPlansAux (st : Settings) (files : List String) :
    List JValue → List FilePlan → Except String (List FilePlan)
  | [], acc => .ok acc
  | c :: rest, acc =>
      match buildBatchPlan st files c with
      | .error e => .error e
      | .ok none => buildBatchPlansAux st files rest acc
      | .ok (some p) => buildBatchPlansAux st files rest (acc ++ [p])

/-- The `for classification in classifications` loop.  Iterating a
non-array parse result either yields nothing (empty dict or string) or
raises on its first element. -/
def buildBatchPlans (st : Settings) (files : List String) (v : JValue) :
    Except String (List FilePlan) :=
  match v with
  | .arr cls => buildBatchPlansAux st files cls []
  | .obj [] => .ok []
  | .str s => if s = "" then .ok [] else .error "object has no attribute get"
  | _ => .error "object is not iterable"

/-- Everything inside the `try` of `classify_batch_with_ai`. -/
def batchPipeline (st : Settings) (files : List String)
    (oracle : Except String String) : Except String (List FilePlan) := do
  let content ← oracle
  let v ← salvageParse (stripFencesBatch content)
  buildBatchPlans st files v

/-- `classify_batch_with_ai` (classifier.py lines 326-577). -/
def classifyBatchWithAI (st : Settings) (files : List String)
    (oracle : Except String String) : List FilePlan :=
  if files.isEmpty then []
  else
    match batchPipeline st files oracle with
    | .ok plans => plans
    | .error e => files.map (fun fp => failPlan "" fp none e)

/-- `extract_correction_pattern` (classifier.py lines 580-647): a second
oracle call fills the pattern/keyword fields; on any failure the
correction is returned unchanged. -/
def extractCorrectionPattern (patternOracle : Except String String)
    (c : Correction) : Correction :=
  match
    (do
      let content ← patternOracle
      let v ← jsonParse (stripFencesBatch content)
      asObj v : Except String (List (String × JValue)))
  with
  | .ok fields =>
      let fp :=
        match jGet fields "filename_pattern" with
        | some (.str s) => some s
        | _ => none
      let kws :=
        match jGet fields "keywords" with
        | some (.arr xs) => xs.filterMap (fun x => match x with | .str s => some s | _ => none)
        | _ => []
      { c with filename_pattern := fp, keywords := kws }
  | .error _ => c

/-- The `revise` CLI command (cli.py lines 199-287): load and validate the
plan, reclassify through the Oracle with the feedback, flip the original to
`revised`, persist the new plan, then learn a Correction (with a secondary
pattern-extraction oracle call).  `fileExists` stands for
`Path(plan.source_path).exists()`; the relevant corrections fetched for
prompt context do not influence the embedded control flow. -/
def revise (st : Settings) (freshId : String)
    (oracle patternOracle : Except String String)
    (db : List FilePlan) (corrStore : List Correction)
    (planId feedback : String) (fileExists : Bool) (now : String) :
    Except String (List FilePlan × List Correction × FilePlan) :=
  match getPlan db planId with
  | none => .error ("Plan not found: " ++ planId)
  | some plan =>
      if plan.status ≠ .pending ∧ plan.status ≠ .revised then
        .error ("Plan cannot be revised (status: " ++ plan.status.value ++ ")")
      else if ¬fileExists then
        .error ("File no longer exists: " ++ plan.source_path)
      else
        let newPlan := classifyWithAI st freshId oracle plan.source_path (some plan)
          (some feedback)
        let db1 := updatePlanStatus db planId .revised none now
        let db2 := savePlan db1 newPlan
        let corr : Correction :=
          { original_filename := basename plan.source_path,
            original_action := plan.action, original_domain := plan.domain,
            original_subfolder := plan.subfolder,
            corrected_action := newPlan.action, corrected_domain := newPlan.domain,
            corrected_subfolder := newPlan.subfolder, user_feedback := feedback }
        let corr2 := extractCorrectionPattern patternOracle corr
        .ok (db2, saveCorrection corrStore corr2, newPlan)

/-! ## Executor (executor.py)

The file system is the list of existing paths; performed operations are
logged as effects.  The only exceptions the dispatch can raise come from
the OS calls, which the model treats as succeeding, so the surrounding
`try`/`except` has no error branch here. -/

inductive FsEffect
  | backup (src : String)
  | moved (src dest : String)
  | trashed (src : String)
  | renamed (src dest : String)
  deriving DecidableEq, Repr

structure SysState where
  db : List FilePlan
  fs : List String
  effects : List FsEffect := []
  deriving Repr

/-- `_execute_plan_impl` (executor.py lines 50-195), dispatching on the
plan's action.  `ts` is the `datetime.now()` timestamp string used by the
archive collision suffix. -/
def executePlanImpl (st : Settings) (now ts : String) (s : SysState)
    (plan : FilePlan) : SysState × Bool × String :=
  if plan.source_path ∉ s.fs then
    ({ s with db := (updatePlanStatus s.db plan.id PlanStatus.failed
        (some "Source file no longer exists") now) },
     false, "Source file no longer exists")
  else
    match plan.action with
    | .move =>
        match plan.destination_path with
        | none =>
            ({ s with db := (updatePlanStatus s.db plan.id PlanStatus.failed
                (some "No destination specified") now) },
             false, "No destination specified")
        | some dest0 =>
            let dest1 :=
              match plan.suggested_name with
              | some nm => if nm ≠ "" then pjoin (dirname dest0) nm else dest0
              | none => dest0
            let dest := resolveMoveDest s.fs dest1
            let s1 :=
              if st.backup_before_move && !st.dry_run then
                { s with effects := s.effects ++ [.backup plan.source_path] }
              else s
            let s2 :=
              if st.dry_run then s1
              else
                { s1 with
                  fs := (s1.fs.filter (· ≠ plan.source_path)).filter (· ≠ dest) ++ [dest]
                  effects := s1.effects ++ [.moved plan.source_path dest] }
            ({ s2 with db := updatePlanStatus s2.db plan.id .executed none now },
             true, "Moved to " ++ dest)
    | .delete =>
        let s1 :=
          if st.backup_before_move && !st.dry_run then
            { s with effects := s.effects ++ [.backup plan.source_path] }
          else s
        let s2 :=
          if st.dry_run then s1
          else
            { s1 with fs := s1.fs.filter (· ≠ plan.source_path)
                      effects := s1.effects ++ [.trashed plan.source_path] }
        ({ s2 with db := updatePlanStatus s2.db plan.id .executed none now },
         true, "Deleted (moved to Trash)")
    | .archive =>
        let dest := archiveDest st s.fs (basename plan.source_path) ts
        let s1 :=
          if st.backup_before_move && !st.dry_run then
            { s with effects := s.effects ++ [.backup plan.source_path] }
          else s
        let s2 :=
          if st.dry_run then s1
          else
            { s1 with
              fs := (s1.fs.filter (· ≠ plan.source_path)).filter (· ≠ dest) ++ [dest]
              effects := s1.effects ++ [.moved plan.source_path dest] }
        ({ s2 with db := updatePlanStatus s2.db plan.id .executed none now },
         true, "Archived to " ++ dest)
    | .rename =>
        if plan.suggested_name.getD "" = "" then
          ({ s with db := (updatePlanStatus s.db plan.id PlanStatus.failed
              (some "No suggested name provided") now) },
           false, "No suggested name provided")
        else
          let newPath0 := pjoin (dirname plan.source_path) (plan.suggested_name.getD "")
          let newPath := resolveMoveDest s.fs newPath0
          let s1 :=
            if st.backup_before_move && !st.dry_run then
              { s with effects := s.effects ++ [.backup plan.source_path] }
            else s
          let s2 :=
            if st.dry_run then s1
            else
              { s1 with
                fs := (s1.fs.filter (· ≠ plan.source_path)).filter (· ≠ newPath) ++ [newPath]
                effects := s1.effects ++ [.renamed plan.source_path newPath] }
          ({ s2 with db := updatePlanStatus s2.db plan.id .executed none now },
           true, "Renamed to " ++ basename newPath)
    | .skip =>
        ({ s with db := updatePlanStatus s.db plan.id .executed none now },
         true, "Skipped as requested")

/-- `execute_plan` (executor.py lines 15-28).  Note the guard: the plan is
executed only when its status is `pending`. -/
def executePlan (st : Settings) (now ts : String) (s : SysState)
    (planId : String) : SysState × Bool × String :=
  match getPlan s.db planId with
  | none => (s, false, "Plan not found: " ++ planId)
  | some plan =>
      if plan.status ≠ .pending then
        (s, false, "Plan is not pending: " ++ plan.status.value)
      else executePlanImpl st now ts s plan

/-- `execute_all_pending` (executor.py lines 31-47): runs
`_execute_plan_impl` over every plan whose status is `approved` (the
`ORDER BY created_at DESC` row order is abstracted to store order). -/
def executeAllPending (st : Settings) (now ts : String) (s : SysState) :
    SysState × List (String × Bool × String) :=
  (getPlansByStatus s.db .approved).foldl
    (fun acc plan =>
      let r := executePlanImpl st now ts acc.1 plan
      (r.1, acc.2 ++ [(plan.id, r.2.1, r.2.2)]))
    (s, [])

/-- `approve_plan` (executor.py lines 248-261): mark approved, then
delegate to `execute_plan`. -/
def approvePlan (st : Settings) (now ts : String) (s : SysState)
    (planId : String) : SysState × Bool × String :=
  match getPlan s.db planId with
  | none => (s, false, "Plan not found: " ++ planId)
  | some plan =>
      if plan.status ≠ .pending then
        (s, false, "Plan is not pending: " ++ plan.status.value)
      else
        executePlan st now ts { s with db := updatePlanStatus s.db planId .approved none now }
          planId

/-! ## Retention cleanup (database.py lines 272-291) -/

structure PyDateTime where
  year : Nat
  month : Nat
  day : Nat
  hour : Nat := 0
  minute : Nat := 0
  second : Nat := 0
  deriving Repr

def isLeapYear (y : Nat) : Bool :=
  y % 4 == 0 && (y % 100 != 0 || y % 400 == 0)

def daysInMonth (y m : Nat) : Nat :=
  if m = 2 then (if isLeapYear y then 29 else 28)
  else if m = 4 ∨ m = 6 ∨ m = 9 ∨ m = 11 then 30
  else 31

def pad2 (n : Nat) : String := if n < 10 then "0" ++ natStr n else natStr n

def pad4 (n : Nat) : String :=
  if n < 10 then "000" ++ natStr n
  else if n < 100 then "00" ++ natStr n
  else if n < 1000 then "0" ++ natStr n
  else natStr n

def isoformat (d : PyDateTime) : String :=
  pad4 d.year ++ "-" ++ pad2 d.month ++ "-" ++ pad2 d.day ++ "T" ++
    pad2 d.hour ++ ":" ++ pad2 d.minute ++ ":" ++ pad2 d.second

/-- `datetime.replace(day=newDay)`: `ValueError` unless
`1 <= newDay <= days-in-month`. -/
def dateReplaceDay (d : PyDateTime) (newDay : Int) : Except String PyDateTime :=
  if 1 ≤ newDay ∧ newDay ≤ (daysInMonth d.year d.month : Int) then
    .ok { d with day := newDay.toNat }
  else .error "ValueError: day is out of range for month"

/-- `cleanup_old_plans(days)` (database.py lines 272-291): the cutoff is
built by replacing the day-of-month with `cutoff.day - days`; when that
raises, the DELETE never runs.  Returns the kept rows and the deleted
count. -/
def cleanupOldPlans (now : PyDateTime) (days : Nat) (db : List FilePlan) :
    Except String (List FilePlan × Nat) := do
  let cutoff0 := { now with hour := 0, minute := 0, second := 0 }
  let cutoff ← dateReplaceDay cutoff0 ((now.day : Int) - (days : Int))
  let iso := isoformat cutoff
  let keep := db.filter (fun p =>
    !((p.status == .executed || p.status == .rejected || p.status == .failed) &&
      decide (p.created_at < iso)))
  pure (keep, db.length - keep.length)

/-! ## Store lemmas -/

theorem getPlan_updatePlanStatus (db : List FilePlan) (pid : String)
    (status : PlanStatus) (err : Option String) (now : String) :
    getPlan (updatePlanStatus db pid status err now) pid =
      (getPlan db pid).map (fun p =>
        { p with
          status := status
          executed_at := if status = .executed then some now else none
          error_message := err }) := by
  unfold getPlan updatePlanStatus
  rw [List.find?_map]
  have hcomp :
      ((fun (p : FilePlan) => p.id == pid) ∘ fun p =>
        if p.id == pid then
          { p with
            status := status
            executed_at := if status = .executed then some now else none
            error_message := err }
        else p) = fun (p : FilePlan) => p.id == pid := by
    funext q
    by_cases hq : q.id = pid <;> simp [hq]
  rw [hcomp]
  cases hfind : List.find? (fun p => p.id == pid) db with
  | none => rfl
  | some x =>
      have hx : x.id = pid := by
        have hx0 := List.find?_some hfind
        simpa using hx0
      simp [hx]

theorem getPlan_savePlan_ne (db : List FilePlan) (p : FilePlan) (pid : String)
    (h : p.id ≠ pid) : getPlan (savePlan db p) pid = getPlan db pid := by
  have hbeq : (p.id == pid) = false := by simp [h]
  unfold savePlan getPlan
  by_cases hany : db.any (fun q => q.id == p.id)
  · simp only [hany, if_true]
    rw [List.find?_map]
    have hcomp :
        ((fun (q : FilePlan) => q.id == pid) ∘ fun q => if q.id == p.id then p else q) =
          fun (q : FilePlan) => q.id == pid := by
      funext q
      by_cases hq : q.id = p.id
      · have hbp : p.id ≠ pid := h
        simp [hq, hbp]
      · simp [hq]
    rw [hcomp]
    cases hfind : List.find? (fun q => q.id == pid) db with
    | none => rfl
    | some x =>
        have h1 : x.id = pid := by
          have hx0 := List.find?_some hfind
          simpa using hx0
        have hx' : ¬(x.id = p.id) := by
          rw [h1]
          exact fun hc => h hc.symm
        simp [hx']
  · have hany' : (db.any fun q => q.id == p.id) = false := by simpa using hany
    simp only [hany', Bool.false_eq_true, if_false]
    rw [List.find?_append]
    simp [List.find?, hbeq]

/-! ## Claim C1 -/

def c1PendingPlan : FilePlan :=
  { id := "p1", source_path := "/inbox/f.txt", action := .skip, status := .pending }

def c1State : SysState := { db := [c1PendingPlan], fs := ["/inbox/f.txt"] }

def c1ApprovedState : SysState :=
  { db := [{ c1PendingPlan with id := "p2", status := .approved }], fs := ["/inbox/f.txt"] }

/-- C1: the spec requires that execution happens only for `approved` Plans
and never transitions a Plan in any other status; but `execute_plan`
executes exactly the Plans whose status is `pending` (executor.py line 25)
and refuses `approved` ones.  Here a pending Plan is executed and
transitioned to the terminal `executed` status, while the same Plan in
`approved` status is refused. -/
theorem c1_execute_plan_runs_pending_plan :
    (executePlan defaultSettings "NOW" "TS" c1State "p1").2 =
      (true, "Skipped as requested") ∧
    getPlan (executePlan defaultSettings "NOW" "TS" c1State "p1").1.db "p1" =
      some { c1PendingPlan with status := .executed, executed_at := some "NOW" } ∧
    (executePlan defaultSettings "NOW" "TS" c1ApprovedState "p2").2 =
      (false, "Plan is not pending: approved") :=
  ⟨rfl, rfl, rfl⟩

/-! ## Claim C10 -/

/-- C10: `cleanup_old_plans(days)` replaces the day-of-month of today's
date with `day - days`; whenever the current day-of-month is at most
`days`, the replacement day is non-positive, `datetime.replace` raises
`ValueError`, and no row is deleted. -/
theorem c10_cleanup_valueerror (now : PyDateTime) (days : Nat)
    (db : List FilePlan) (h : now.day ≤ days) :
    cleanupOldPlans now days db = .error "ValueError: day is out of range for month" := by
  have hcond : ¬(1 ≤ (now.day : Int) - (days : Int) ∧
      (now.day : Int) - (days : Int) ≤ ((daysInMonth now.year now.month : Nat) : Int)) := by
    intro hc
    omega
  unfold cleanupOldPlans dateReplaceDay
  dsimp only
  rw [if_neg hcond]
  rfl

/-- C10 witness: the default `days = 30` on 2024-10-12 raises and deletes
nothing. -/
theorem c10_cleanup_valueerror_witness :
    ({ year := 2024, month := 10, day := 12 } : PyDateTime).day ≤ 30 ∧
    cleanupOldPlans { year := 2024, month := 10, day := 12 } 30
        [{ id := "p", source_path := "/x", action := .skip, status := .executed,
           created_at := "2023-01-01T00:00:00" }] =
      .error "ValueError: day is out of range for month" :=
  ⟨by decide, c10_cleanup_valueerror _ _ _ (by decide)⟩

/-! ## Claim C2 -/

def c2Settings : Settings := { areas_path := "/Areas" }

def c2ArchivePlan : FilePlan :=
  { id := "a1", source_path := "/inbox/report.pdf", action := .archive,
    status := .approved }

def c2State : SysState :=
  { db := [c2ArchivePlan],
    fs := ["/inbox/report.pdf", "/Areas/Personal/Archive/report.pdf",
      "/Areas/Personal/Archive/report_20240101_000000.pdf"] }

/-- C2 counterexample: for an approved `archive` Plan whose destination
already exists, the Executor does not append `-{n}`: it appends a single
`_{timestamp}` to the stem (executor.py lines 143-147) and, when that name
is also taken, moves onto the existing file — the performed move targets a
path that was already in the file system, and the chosen name differs from
the `-1` candidate the claim requires. -/
theorem c2_archive_timestamp_counterexample :
    (executePlanImpl c2Settings "NOW" "20240101_000000" c2State c2ArchivePlan).1.effects =
      [.backup "/inbox/report.pdf",
       .moved "/inbox/report.pdf" "/Areas/Personal/Archive/report_20240101_000000.pdf"] ∧
    "/Areas/Personal/Archive/report_20240101_000000.pdf" ∈ c2State.fs ∧
    archiveDest c2Settings c2State.fs "report.pdf" "20240101_000000" ≠
      "/Areas/Personal/Archive/report-1.pdf" :=
  ⟨rfl, by decide, by decide⟩

/-- C2 (amended): the `-{n}` collision law holds for the `move` and
`rename` actions: when the destination exists, the Executor's
`resolveMoveDest` loop returns the first free `stem-{n}{suffix}` candidate
(n = 1, 2, ...) and never lands on an existing file; `archive` instead
appends a single timestamp suffix. -/
theorem c2_move_collision_law (fs : List String) (dest : String)
    (hdest : dest ∈ fs) :
    resolveMoveDest fs dest ∉ fs ∧
    ∃ n, 1 ≤ n ∧
      resolveMoveDest fs dest =
        moveCandidate (dirname dest) (splitStemSuffix (basename dest)).1
          (splitStemSuffix (basename dest)).2 n ∧
      ∀ m, 1 ≤ m → m < n →
        moveCandidate (dirname dest) (splitStemSuffix (basename dest)).1
          (splitStemSuffix (basename dest)).2 m ∈ fs := by
  have h := resolveMoveDest_spec fs dest
  exact ⟨h.1, h.2 hdest⟩

/-- C2 witness: with `/a/r.pdf` and `/a/r-1.pdf` both existing, the move
loop lands on `/a/r-2.pdf`. -/
theorem c2_move_collision_law_witness :
    "/a/r.pdf" ∈ ["/a/r.pdf", "/a/r-1.pdf"] ∧
    (resolveMoveDest ["/a/r.pdf", "/a/r-1.pdf"] "/a/r.pdf" ∉
        ["/a/r.pdf", "/a/r-1.pdf"] ∧
      ∃ n, 1 ≤ n ∧
        resolveMoveDest ["/a/r.pdf", "/a/r-1.pdf"] "/a/r.pdf" =
          moveCandidate (dirname "/a/r.pdf") (splitStemSuffix (basename "/a/r.pdf")).1
            (splitStemSuffix (basename "/a/r.pdf")).2 n ∧
        ∀ m, 1 ≤ m → m < n →
          moveCandidate (dirname "/a/r.pdf") (splitStemSuffix (basename "/a/r.pdf")).1
            (splitStemSuffix (basename "/a/r.pdf")).2 m ∈ ["/a/r.pdf", "/a/r-1.pdf"]) :=
  ⟨by decide, c2_move_collision_law ["/a/r.pdf", "/a/r-1.pdf"] "/a/r.pdf" (by decide)⟩

/-! ## Claim C9 -/

theorem executePlan_not_pending (st : Settings) (now ts : String) (s : SysState)
    (planId : String) (plan : FilePlan) (hplan : getPlan s.db planId = some plan)
    (h : plan.status ≠ .pending) :
    executePlan st now ts s planId =
      (s, false, "Plan is not pending: " ++ plan.status.value) := by
  unfold executePlan
  rw [hplan]
  dsimp only
  rw [if_pos h]

/-- C9: `approve_plan` on a pending Plan first flips it to `approved`, then
delegates to `execute_plan`, which re-reads the Plan, finds it no longer
`pending`, and returns the failure "Plan is not pending: approved" without
touching the file system — so `approve_plan` never completes an
approve-then-execute in one call. -/
theorem c9_approve_plan_never_executes (st : Settings) (now ts : String)
    (s : SysState) (planId : String) (plan : FilePlan)
    (hplan : getPlan s.db planId = some plan) (hpend : plan.status = .pending) :
    approvePlan st now ts s planId =
      ({ s with db := updatePlanStatus s.db planId .approved none now }, false,
        "Plan is not pending: approved") := by
  unfold approvePlan
  rw [hplan]
  dsimp only
  have hnp : ¬(plan.status ≠ PlanStatus.pending) := by simp [hpend]
  rw [if_neg hnp]
  have hplan2 :
      getPlan ({ s with db := updatePlanStatus s.db planId .approved none now } : SysState).db
        planId =
      some { plan with status := .approved, executed_at := none, error_message := none } := by
    show getPlan (updatePlanStatus s.db planId .approved none now) planId = _
    rw [getPlan_updatePlanStatus, hplan]
    rfl
  rw [executePlan_not_pending st now ts _ planId _ hplan2 (by simp)]
  rfl

def c9Plan : FilePlan :=
  { id := "q1", source_path := "/d/g.txt", action := .skip, status := .pending }

def c9State : SysState := { db := [c9Plan], fs := ["/d/g.txt"] }

/-- C9 witness: a concrete pending skip Plan is approved but not executed. -/
theorem c9_approve_plan_never_executes_witness :
    getPlan c9State.db "q1" = some c9Plan ∧ c9Plan.status = .pending ∧
    approvePlan defaultSettings "NOW" "TS" c9State "q1" =
      ({ c9State with db := updatePlanStatus c9State.db "q1" .approved none "NOW" },
        false, "Plan is not pending: approved") :=
  ⟨rfl, rfl,
    c9_approve_plan_never_executes defaultSettings "NOW" "TS" c9State "q1" c9Plan rfl rfl⟩

/-! ## Claim C7 -/

/-- C7: whenever the Oracle call or any step of parsing its response fails
(network error, malformed JSON, missing or invalid fields), the Plan
Builder returns the degraded skip Plan — confidence 0, reasoning citing the
failure — instead of propagating the exception; in the batch variant every
file of the batch receives such a Plan. -/
theorem c7_oracle_failure_degrades_to_skip :
    (∀ st freshId filePath existing feedback oracle e,
      singlePipeline st freshId filePath existing feedback oracle = .error e →
        classifyWithAI st freshId oracle filePath existing feedback =
          failPlan freshId filePath feedback e ∧
        (failPlan freshId filePath feedback e).action = .skip ∧
        (failPlan freshId filePath feedback e).confidence = 0 ∧
        (failPlan freshId filePath feedback e).reasoning =
          "AI classification failed: " ++ e) ∧
    (∀ st files oracle e,
      batchPipeline st files oracle = .error e →
        classifyBatchWithAI st files oracle =
          files.map (fun fp => failPlan "" fp none e)) := by
  constructor
  · intro st freshId filePath existing feedback oracle e h
    refine ⟨?_, rfl, rfl, rfl⟩
    simp [classifyWithAI, h]
  · intro st files oracle e h
    by_cases hf : files.isEmpty
    · have : files = [] := by simpa [List.isEmpty_iff] using hf
      simp [classifyBatchWithAI, this]
    · simp [classifyBatchWithAI, hf, h]

/-- C7 witness: a failing Oracle call degrades both entry points. -/
theorem c7_oracle_failure_degrades_to_skip_witness :
    singlePipeline defaultSettings "n1" "/inbox/mystery.bin" none none
        (.error "ConnectionError") = .error "ConnectionError" ∧
    classifyWithAI defaultSettings "n1" (.error "ConnectionError")
        "/inbox/mystery.bin" none none =
      failPlan "n1" "/inbox/mystery.bin" none "ConnectionError" ∧
    batchPipeline defaultSettings ["/inbox/a.bin", "/inbox/b.bin"]
        (.error "ConnectionError") = .error "ConnectionError" ∧
    classifyBatchWithAI defaultSettings ["/inbox/a.bin", "/inbox/b.bin"]
        (.error "ConnectionError") =
      ["/inbox/a.bin", "/inbox/b.bin"].map
        (fun fp => failPlan "" fp none "ConnectionError") :=
  ⟨rfl,
    (c7_oracle_failure_degrades_to_skip.1 defaultSettings "n1" "/inbox/mystery.bin"
      none none (.error "ConnectionError") "ConnectionError" rfl).1,
    rfl,
    c7_oracle_failure_degrades_to_skip.2 defaultSettings
      ["/inbox/a.bin", "/inbox/b.bin"] (.error "ConnectionError") "ConnectionError" rfl⟩

/-! ## Claim C4 -/

def c4Content : String :=
  "\x7b\"action\": \"move\", \"domain\": \"Travel\", \"subfolder\": \"Documents\", \"category\": \"document\", \"confidence\": 0.9, \"reasoning\": \"trip\"\x7d"

/-- C4 counterexample: the single-item Plan Builder has no alias table.  An
Oracle response with domain "Travel" is not mapped to Personal: the enum
constructor raises, the classification falls into the failure branch, and
the result is the confidence-0 skip Plan with no domain at all. -/
theorem c4_single_travel_not_aliased :
    (classifyWithAI defaultSettings "n1" (.ok c4Content)
        "/inbox/trip-itinerary.pdf" none none).action = .skip ∧
    (classifyWithAI defaultSettings "n1" (.ok c4Content)
        "/inbox/trip-itinerary.pdf" none none).confidence = 0 ∧
    (classifyWithAI defaultSettings "n1" (.ok c4Content)
        "/inbox/trip-itinerary.pdf" none none).domain = none ∧
    (classifyWithAI defaultSettings "n1" (.ok c4Content)
        "/inbox/trip-itinerary.pdf" none none).reasoning =
      "AI classification failed: Travel is not a valid LifeDomain" :=
  ⟨rfl, rfl, rfl, rfl⟩

/-- C4 (amended): only the batch variant maps the Oracle's free-form domain
string through the alias table (Travel to Personal, Medical to Health, ...)
with unknown values defaulting to Personal and never failing; the
single-item variant has no alias mapping, and any domain string outside the
six closed values raises into the failure branch, yielding the degraded
skip Plan instead of an aliased domain. -/
theorem c4_domain_mapping_amended :
    (mapBatchDomainStr "Travel" = .personal ∧ mapBatchDomainStr "Medical" = .health ∧
      ∀ raw, LifeDomain.fromString? raw = none →
        domainAliases.find? (fun kv => kv.1 == raw) = none →
        mapBatchDomainStr raw = .personal) ∧
    (∀ st freshId filePath existing feedback fields raw,
      jGet fields "domain" = some (.str raw) → raw ≠ "" → raw ≠ "null" →
      LifeDomain.fromString? raw = none →
      buildSinglePlan st freshId filePath existing feedback (.obj fields) =
        .error (raw ++ " is not a valid LifeDomain")) := by
  constructor
  · refine ⟨rfl, rfl, ?_⟩
    intro raw h1 h2
    simp [mapBatchDomainStr, h1, h2]
  · intro st freshId filePath existing feedback fields raw hdom hne hnull hval
    have ht : jTruthyNotNullStr (.str raw) = true := by
      simp [jTruthyNotNullStr, JValue.truthy, hne, hnull]
    simp only [buildSinglePlan, singleDomDest, asObj, Bind.bind, Except.bind,
      hdom, ht, hval, if_true, pure]

/-- C4 witness: a concrete batch response carrying domain "Travel" builds a
Personal-domain Plan, while the same domain string makes the single-item
builder raise. -/
theorem c4_domain_mapping_amended_witness :
    mapBatchDomainStr "Travel" = .personal ∧
    jGet [("domain", JValue.str "Travel")] "domain" = some (.str "Travel") ∧
    LifeDomain.fromString? "Travel" = none ∧
    buildSinglePlan defaultSettings "n1" "/inbox/trip.pdf" none none
        (.obj [("domain", JValue.str "Travel")]) =
      .error "Travel is not a valid LifeDomain" :=
  ⟨c4_domain_mapping_amended.1.1, rfl, rfl,
    c4_domain_mapping_amended.2 defaultSettings "n1" "/inbox/trip.pdf" none none
      [("domain", JValue.str "Travel")] "Travel" rfl (by decide) (by decide) rfl⟩

/-! ## Claim C5 -/

theorem except_bind_ok {α β ε : Type} (x : Except ε α) (f : α → Except ε β) (b : β)
    (h : (x >>= f) = .ok b) : ∃ a, x = .ok a ∧ f a = .ok b := by
  cases x with
  | error e => simp [Bind.bind, Except.bind] at h
  | ok a => exact ⟨a, rfl, by simpa [Bind.bind, Except.bind] using h⟩

theorem singlePipeline_ok (st : Settings) (freshId fp : String)
    (ex : Option FilePlan) (fb : Option String) (oracle : Except String String)
    (p : FilePlan)
    (h : singlePipeline st freshId fp ex fb oracle = .ok p) :
    ∃ v, buildSinglePlan st freshId fp ex fb v = .ok p := by
  unfold singlePipeline at h
  obtain ⟨content, _, h⟩ := except_bind_ok _ _ _ h
  obtain ⟨c2, _, h⟩ := except_bind_ok _ _ _ h
  obtain ⟨v, _, h⟩ := except_bind_ok _ _ _ h
  exact ⟨v, h⟩

/-- The fields of a successfully built single-item Plan that do not depend
on the parsed response: id, revision chain, provenance, feedback, status. -/
theorem buildSinglePlan_ok_fields (st : Settings) (freshId fp : String)
    (ex : Option FilePlan) (fb : Option String) (v : JValue) (p : FilePlan)
    (h : buildSinglePlan st freshId fp ex fb v = .ok p) :
    p.id = freshId ∧ p.original_plan_id = ex.map (·.id) ∧
    p.revision_count = (ex.map (fun e => e.revision_count + 1)).getD 0 ∧
    p.classification_source = "ai" ∧ p.user_feedback = fb ∧ p.status = .pending := by
  unfold buildSinglePlan at h
  obtain ⟨fields, _, h⟩ := except_bind_ok _ _ _ h
  obtain ⟨dd, _, h⟩ := except_bind_ok _ _ _ h
  obtain ⟨dom, dest⟩ := dd
  obtain ⟨cm, _, h⟩ := except_bind_ok _ _ _ h
  obtain ⟨action, category, confidence, reasoning, suggestedName, subfolderField⟩ := cm
  simp only [pure, Except.pure, Except.ok.injEq] at h
  subst h
  refine ⟨rfl, rfl, ?_, rfl, rfl, rfl⟩
  cases ex <;> rfl

/-- C5 (amended): after `revise(plan_id, feedback)` on a revisable Plan the
original is flipped to `revised` and, when the Oracle call succeeds, the
stored Plan's `original_plan_id` equals the original's id and its
`revision_count` is exactly the original's plus one.  (When the Oracle call
fails, the fallback skip Plan instead carries `original_plan_id = none` and
`revision_count = 0` — see the counterexample.) -/
theorem c5_revision_chain_amended (st : Settings) (freshId : String)
    (oracle patternOracle : Except String String) (db : List FilePlan)
    (corrStore : List Correction) (planId feedback now : String) (plan : FilePlan)
    (hplan : getPlan db planId = some plan)
    (hstatus : plan.status = .pending ∨ plan.status = .revised)
    (p : FilePlan)
    (hok : singlePipeline st freshId plan.source_path (some plan) (some feedback)
        oracle = .ok p)
    (hfresh : p.id ≠ planId) :
    ∃ db2 cs2,
      revise st freshId oracle patternOracle db corrStore planId feedback true now =
        .ok (db2, cs2, p) ∧
      p.original_plan_id = some plan.id ∧
      p.revision_count = plan.revision_count + 1 ∧
      (getPlan db2 planId).map (·.status) = some .revised := by
  have hcw : classifyWithAI st freshId oracle plan.source_path (some plan)
      (some feedback) = p := by
    simp [classifyWithAI, hok]
  have hcond : ¬(plan.status ≠ PlanStatus.pending ∧ plan.status ≠ PlanStatus.revised) := by
    rcases hstatus with h | h <;> simp [h]
  obtain ⟨v, hb⟩ := singlePipeline_ok _ _ _ _ _ _ _ hok
  obtain ⟨_, hop, hrc, _, _, _⟩ := buildSinglePlan_ok_fields _ _ _ _ _ _ _ hb
  have hrev : revise st freshId oracle patternOracle db corrStore planId feedback true now =
      .ok (savePlan (updatePlanStatus db planId .revised none now) p,
        saveCorrection corrStore (extractCorrectionPattern patternOracle
          { original_filename := basename plan.source_path,
            original_action := plan.action, original_domain := plan.domain,
            original_subfolder := plan.subfolder,
            corrected_action := p.action, corrected_domain := p.domain,
            corrected_subfolder := p.subfolder, user_feedback := feedback }), p) := by
    unfold revise
    rw [hplan]
    dsimp only
    rw [if_neg hcond, if_neg (by simp), hcw]
  refine ⟨_, _, hrev, by simpa using hop, by simpa using hrc, ?_⟩
  rw [getPlan_savePlan_ne _ _ _ hfresh, getPlan_updatePlanStatus, hplan]
  rfl

def c5Plan : FilePlan :=
  { id := "p1", source_path := "/d/f.pdf", action := .move, status := .pending }

/-- C5 counterexample: when the Oracle call made during the revision fails,
the stored replacement Plan does not link back to the original — its
`original_plan_id` is `none` (not the original's id "p1") and its
`revision_count` is 0 (not original+1 = 1), even though the original is
still flipped to `revised`. -/
theorem c5_revise_failure_counterexample :
    (revise defaultSettings "n2" (.error "ConnectionError") (.error "x") [c5Plan] []
        "p1" "this is a health document" true "NOW").toOption.map
      (fun t => (t.2.2.original_plan_id, t.2.2.revision_count)) = some (none, 0) ∧
    c5Plan.revision_count + 1 = 1 ∧
    (revise defaultSettings "n2" (.error "ConnectionError") (.error "x") [c5Plan] []
        "p1" "this is a health document" true "NOW").toOption.map
      (fun t => (getPlan t.1 "p1").map (·.status)) = some (some .revised) :=
  ⟨rfl, rfl, rfl⟩

def c5SuccessContent : String :=
  "\x7b\"action\": \"move\", \"domain\": \"Health\", \"subfolder\": \"Documents\", \"category\": \"document\", \"confidence\": 0.9, \"reasoning\": \"health doc\"\x7d"

def c5NewPlan : FilePlan :=
  classifyWithAI defaultSettings "n2" (.ok c5SuccessContent) "/d/f.pdf"
    (some c5Plan) (some "this is a health document")

/-- C5 witness: a successful revision of a concrete pending Plan. -/
theorem c5_revision_chain_amended_witness :
    getPlan [c5Plan] "p1" = some c5Plan ∧
    singlePipeline defaultSettings "n2" "/d/f.pdf" (some c5Plan)
        (some "this is a health document") (.ok c5SuccessContent) = .ok c5NewPlan ∧
    c5NewPlan.id ≠ "p1" ∧
    ∃ db2 cs2,
      revise defaultSettings "n2" (.ok c5SuccessContent) (.error "x") [c5Plan] []
          "p1" "this is a health document" true "NOW" = .ok (db2, cs2, c5NewPlan) ∧
      c5NewPlan.original_plan_id = some c5Plan.id ∧
      c5NewPlan.revision_count = c5Plan.revision_count + 1 ∧
      (getPlan db2 "p1").map (·.status) = some .revised :=
  ⟨rfl, rfl, by decide,
    c5_revision_chain_amended defaultSettings "n2" (.ok c5SuccessContent) (.error "x")
      [c5Plan] [] "p1" "this is a health document" "NOW" c5Plan rfl (Or.inl rfl)
      c5NewPlan rfl (by decide)⟩

/-! ## Claim C3 -/

theorem correctionDestination_isSome (st : Settings) (c : Correction) (fn : String) :
    (correctionDestination st c fn).isSome ↔
      (c.corrected_action = .move ∧ c.corrected_domain.isSome) := by
  unfold correctionDestination
  by_cases ha : c.corrected_action = .move
  · cases c.corrected_domain <;> simp [ha]
  · simp [ha]

theorem planFromCorrection_dest_iff (st : Settings) (fp fn : String)
    (c : Correction) (hit : CorrHit) :
    (planFromCorrection st fp fn c hit).destination_path.isSome ↔
      ((planFromCorrection st fp fn c hit).action = .move ∧
        (planFromCorrection st fp fn c hit).domain.isSome) := by
  cases hit <;> exact correctionDestination_isSome st c fn

theorem correctionStage_shape (st : Settings)
    (research : Bool → String → String → Bool) (fp fn : String) :
    ∀ cs pc, correctionStage st research fp fn cs = some pc →
      ∃ c hit, pc.1 = planFromCorrection st fp fn c hit := by
  intro cs
  induction cs with
  | nil => intro pc h; simp [correctionStage] at h
  | cons c rest ih =>
      intro pc h
      unfold correctionStage at h
      cases hm : correctionMatch research fn c with
      | some hit =>
          rw [hm] at h
          exact ⟨c, hit, by cases h; rfl⟩
      | none =>
          rw [hm] at h
          exact ih pc h

theorem ruleDestination_isSome (st : Settings) (r : ClassificationRule) (fn : String) :
    (ruleDestination st r fn).isSome ↔ (r.action = .move ∧ r.domain.isSome) := by
  unfold ruleDestination
  by_cases ha : r.action = .move
  · cases r.domain <;> simp [ha]
  · simp [ha]

theorem batchDomDest_iff (st : Settings) (fields : List (String × JValue))
    (fn : String) (dom : Option LifeDomain) (dest : Option String)
    (h : batchDomDest st fields fn = .ok (dom, dest)) :
    dest.isSome ↔ dom.isSome := by
  unfold batchDomDest at h
  cases hg : jGet fields "domain" with
  | none =>
      rw [hg] at h
      simp only [pure, Except.pure, Except.ok.injEq, Prod.mk.injEq] at h
      simp [← h.1, ← h.2]
  | some w =>
      rw [hg] at h
      dsimp only at h
      by_cases ht : jTruthyNotNullStr w
      · rw [if_pos ht] at h
        obtain ⟨sub, _, h⟩ := except_bind_ok _ _ _ h
        obtain ⟨destFn, _, h⟩ := except_bind_ok _ _ _ h
        simp only [pure, Except.pure, Except.ok.injEq, Prod.mk.injEq] at h
        simp [← h.1, ← h.2]
      · rw [if_neg ht] at h
        simp only [pure, Except.pure, Except.ok.injEq, Prod.mk.injEq] at h
        simp [← h.1, ← h.2]

theorem singleDomDest_iff (st : Settings) (fields : List (String × JValue))
    (fn : String) (dom : Option LifeDomain) (dest : Option String)
    (h : singleDomDest st fields fn = .ok (dom, dest)) :
    dest.isSome ↔ dom.isSome := by
  unfold singleDomDest at h
  cases hg : jGet fields "domain" with
  | none =>
      rw [hg] at h
      simp only [pure, Except.pure, Except.ok.injEq, Prod.mk.injEq] at h
      simp [← h.1, ← h.2]
  | some w =>
      rw [hg] at h
      dsimp only at h
      by_cases ht : jTruthyNotNullStr w
      · rw [if_pos ht] at h
        cases w with
        | str s =>
            dsimp only at h
            cases hd : LifeDomain.fromString? s with
            | none => rw [hd] at h; simp at h
            | some d =>
                rw [hd] at h
                obtain ⟨sub, _, h⟩ := except_bind_ok _ _ _ h
                simp only [pure, Except.pure, Except.ok.injEq, Prod.mk.injEq] at h
                simp [← h.1, ← h.2]
        | null => simp at h
        | jbool b => simp at h
        | num q => simp at h
        | arr xs => simp at h
        | obj fs => simp at h
      · rw [if_neg ht] at h
        simp only [pure, Except.pure, Except.ok.injEq, Prod.mk.injEq] at h
        simp [← h.1, ← h.2]

theorem buildBatchPlan_dest_iff (st : Settings) (files : List String)
    (cls : JValue) (p : FilePlan)
    (h : buildBatchPlan st files cls = .ok (some p)) :
    p.destination_path.isSome ↔ p.domain.isSome := by
  unfold buildBatchPlan at h
  cases ho : asObj cls with
  | error e => rw [ho] at h; simp at h
  | ok fields =>
      rw [ho] at h
      dsimp only at h
      cases hi : batchIdx fields with
      | error e => rw [hi] at h; simp at h
      | ok idxQ =>
          rw [hi] at h
          dsimp only at h
          by_cases hr : idxQ < 0 ∨ (files.length : ℚ) ≤ idxQ
          · rw [if_pos hr] at h
            simp at h
          · rw [if_neg hr] at h
            by_cases hden : idxQ.den = 1
            · rw [if_pos hden] at h
              obtain ⟨dd, hdd, h⟩ := except_bind_ok _ _ _ h
              obtain ⟨dom, dest⟩ := dd
              obtain ⟨cm, _, h⟩ := except_bind_ok _ _ _ h
              obtain ⟨action, category, confidence, reasoning, suggestedName,
                subfolderField⟩ := cm
              simp only [pure, Except.pure, Except.ok.injEq, Option.some.injEq] at h
              rw [← h]
              exact batchDomDest_iff st fields _ dom dest hdd
            · rw [if_neg hden] at h
              simp at h

theorem buildSinglePlan_dest_iff (st : Settings) (freshId fp : String)
    (ex : Option FilePlan) (fb : Option String) (v : JValue) (p : FilePlan)
    (h : buildSinglePlan st freshId fp ex fb v = .ok p) :
    p.destination_path.isSome ↔ p.domain.isSome := by
  unfold buildSinglePlan at h
  obtain ⟨fields, _, h⟩ := except_bind_ok _ _ _ h
  obtain ⟨dd, hdd, h⟩ := except_bind_ok _ _ _ h
  obtain ⟨dom, dest⟩ := dd
  obtain ⟨cm, _, h⟩ := except_bind_ok _ _ _ h
  obtain ⟨action, category, confidence, reasoning, suggestedName, subfolderField⟩ := cm
  simp only [pure, Except.pure, Except.ok.injEq] at h
  rw [← h]
  exact singleDomDest_iff st fields _ dom dest hdd

theorem buildBatchPlansAux_mem (st : Settings) (files : List String) :
    ∀ cls acc plans, buildBatchPlansAux st files cls acc = .ok plans →
      ∀ p ∈ plans, p ∈ acc ∨ ∃ c, buildBatchPlan st files c = .ok (some p) := by
  intro cls
  induction cls with
  | nil =>
      intro acc plans h p hp
      unfold buildBatchPlansAux at h
      cases h
      exact Or.inl hp
  | cons c rest ih =>
      intro acc plans h p hp
      unfold buildBatchPlansAux at h
      cases hb : buildBatchPlan st files c with
      | error e => rw [hb] at h; simp at h
      | ok o =>
          rw [hb] at h
          cases o with
          | none => exact ih acc plans h p hp
          | some q =>
              rcases ih (acc ++ [q]) plans h p hp with hmem | hex
              · rcases List.mem_append.mp hmem with hmem | hmem
                · exact Or.inl hmem
                · have : p = q := by simpa using hmem
                  exact Or.inr ⟨c, by rw [this]; exact hb⟩
              · exact Or.inr hex

def c3Content : String :=
  "[\x7b\"index\": 1, \"action\": \"delete\", \"domain\": \"Personal\", \"subfolder\": \"Documents\", \"category\": \"document\", \"confidence\": 0.9, \"reasoning\": \"junk\"\x7d]"

/-- The concrete `re.search` oracle for the filename `foo.zip`: among all
patterns of `RULES` exactly `\.zip$` matches it (and the classifier is
given no corrections, so no correction pattern is consulted). -/
def zipResearch : Bool → String → String → Bool :=
  fun _ p s => p == "\\.zip$" && s == "foo.zip"

/-- C3 counterexample: the claimed equivalence fails in both directions.
A batch Oracle response classifying a file as `delete` with domain
"Personal" produces a Plan whose `destination_path` is set although its
action is neither move nor archive; and the static `archive_files` rule
produces an `archive` Plan with a resolved domain (Personal) whose
`destination_path` is `none` (rules.py only computes a destination for
`move`). -/
theorem c3_destination_iff_counterexample :
    (classifyBatchWithAI defaultSettings ["/tmp/a.txt"] (.ok c3Content)).map
        (fun p => (p.action, p.destination_path.isSome, p.domain)) =
      [(FileAction.delete, true, some LifeDomain.personal)] ∧
    (classifyFile defaultSettings zipResearch true [] "/inbox/foo.zip").1.action =
      .archive ∧
    (classifyFile defaultSettings zipResearch true [] "/inbox/foo.zip").1.domain =
      some .personal ∧
    (classifyFile defaultSettings zipResearch true [] "/inbox/foo.zip").1.destination_path =
      none :=
  ⟨by decide, by decide, by decide, by decide⟩

/-- C3 (amended): on the rule/learned path (`classify_file`) a Plan's
`destination_path` is set iff its action is `move` and a domain was
resolved — in particular archive Plans never carry one; on the Oracle paths
(single and batch builders) `destination_path` is set iff a domain was
resolved, regardless of the action. -/
theorem c3_destination_iff_amended :
    (∀ st research dbOk store filePath,
      ((classifyFile st research dbOk store filePath).1.destination_path.isSome ↔
        ((classifyFile st research dbOk store filePath).1.action = .move ∧
          (classifyFile st research dbOk store filePath).1.domain.isSome))) ∧
    (∀ st files v plans, buildBatchPlans st files v = .ok plans →
      ∀ p ∈ plans, (p.destination_path.isSome ↔ p.domain.isSome)) ∧
    (∀ st freshId fp ex fb v p, buildSinglePlan st freshId fp ex fb v = .ok p →
      (p.destination_path.isSome ↔ p.domain.isSome)) := by
  refine ⟨?_, ?_, ?_⟩
  · intro st research dbOk store filePath
    unfold classifyFile
    by_cases hig : shouldIgnore st (basename filePath)
    · simp [hig]
    · simp only [hig, Bool.false_eq_true, if_false]
      cases hcs : (if dbOk then
          correctionStage st research filePath (basename filePath)
            (getRelevantCorrections research store (basename filePath) 5)
        else none) with
      | some pc =>
          obtain ⟨plan, cid⟩ := pc
          have hshape : ∃ c hit,
              plan = planFromCorrection st filePath (basename filePath) c hit := by
            by_cases hdb : dbOk
            · rw [if_pos hdb] at hcs
              obtain ⟨c, hit, hp⟩ := correctionStage_shape st research filePath
                (basename filePath) _ (plan, cid) hcs
              exact ⟨c, hit, hp⟩
            · rw [if_neg hdb] at hcs
              simp at hcs
          obtain ⟨c, hit, hp⟩ := hshape
          subst hp
          exact planFromCorrection_dest_iff st filePath (basename filePath) c hit
      | none =>
          cases hbr : bestRule research (basename filePath) with
          | some r => exact ruleDestination_isSome st r (basename filePath)
          | none => simp
  · intro st files v plans h p hp
    cases v with
    | arr cls =>
        unfold buildBatchPlans at h
        rcases buildBatchPlansAux_mem st files cls [] plans h p hp with hmem | ⟨c, hc⟩
        · simp at hmem
        · exact buildBatchPlan_dest_iff st files c p hc
    | obj fs =>
        cases fs with
        | nil => unfold buildBatchPlans at h; cases h; simp at hp
        | cons kv rest => unfold buildBatchPlans at h; simp at h
    | str s =>
        unfold buildBatchPlans at h
        dsimp only at h
        by_cases hs : s = ""
        · rw [if_pos hs] at h; cases h; simp at hp
        · rw [if_neg hs] at h; simp at h
    | null => unfold buildBatchPlans at h; simp at h
    | jbool b => unfold buildBatchPlans at h; simp at h
    | num q => unfold buildBatchPlans at h; simp at h
  · intro st freshId fp ex fb v p h
    exact buildSinglePlan_dest_iff st freshId fp ex fb v p h

/-- C3 witness: the amended law evaluated on the batch response above and
on a concrete single-item response. -/
theorem c3_destination_iff_amended_witness :
    ((classifyFile defaultSettings zipResearch true [] "/inbox/foo.zip").1.destination_path.isSome ↔
      ((classifyFile defaultSettings zipResearch true [] "/inbox/foo.zip").1.action = .move ∧
        (classifyFile defaultSettings zipResearch true [] "/inbox/foo.zip").1.domain.isSome)) ∧
    buildBatchPlans defaultSettings ["/tmp/a.txt"] (.arr []) = .ok [] ∧
    (∀ p ∈ ([] : List FilePlan), (p.destination_path.isSome ↔ p.domain.isSome)) :=
  ⟨(c3_destination_iff_amended.1 defaultSettings zipResearch true [] "/inbox/foo.zip"),
    rfl,
    c3_destination_iff_amended.2.1 defaultSettings ["/tmp/a.txt"] (.arr []) [] rfl⟩

/-! ## Claim C6 -/

theorem correctionStage_append_none (st : Settings)
    (research : Bool → String → String → Bool) (fp fn : String)
    (pre rest : List Correction)
    (hpre : ∀ c' ∈ pre, correctionMatch research fn c' = none) :
    correctionStage st research fp fn (pre ++ rest) =
      correctionStage st research fp fn rest := by
  induction pre with
  | nil => rfl
  | cons c0 pre0 ih =>
      have h0 : correctionMatch research fn c0 = none := hpre c0 (by simp)
      rw [List.cons_append, correctionStage, h0]
      dsimp only
      exact ih (fun c' hc' => hpre c' (by simp [hc']))

theorem classifyFile_correction_hit (st : Settings)
    (research : Bool → String → String → Bool) (store : List Correction)
    (filePath : String) (pre post : List Correction) (c : Correction)
    (hnoign : shouldIgnore st (basename filePath) = false)
    (hrel : getRelevantCorrections research store (basename filePath) 5 =
      pre ++ c :: post)
    (hpre : ∀ c' ∈ pre, correctionMatch research (basename filePath) c' = none)
    (hit : CorrHit)
    (hm : correctionMatch research (basename filePath) c = some hit) :
    classifyFile st research true store filePath =
      (planFromCorrection st filePath (basename filePath) c hit, [c.id]) := by
  unfold classifyFile
  simp only [hnoign, Bool.false_eq_true, if_false, if_true]
  rw [hrel, correctionStage_append_none st research filePath (basename filePath)
    pre (c :: post) hpre]
  unfold correctionStage
  rw [hm]

/-- C6: a Correction considered by `classify_file` — the first matching one
of the relevant list — yields, on a regex-pattern match, a Plan carrying
the Correction's corrected action/domain/subfolder with confidence exactly
0.95 (here `mkRat 95 100`) and `classification_source = "learned"`; when
the regex does not apply but at least two of its keywords occur in the
filename, the same with confidence exactly 0.85; and either way
`increment_correction_usage` is invoked exactly once, for that
Correction. -/
theorem c6_learned_correction_confidences (st : Settings)
    (research : Bool → String → String → Bool) (store : List Correction)
    (filePath : String) (pre post : List Correction) (c : Correction)
    (hnoign : shouldIgnore st (basename filePath) = false)
    (hrel : getRelevantCorrections research store (basename filePath) 5 =
      pre ++ c :: post)
    (hpre : ∀ c' ∈ pre, correctionMatch research (basename filePath) c' = none) :
    (∀ p, c.filename_pattern = some p → p ≠ "" →
      research false p (basename filePath) = true →
      (classifyFile st research true store filePath).1.confidence = mkRat 95 100 ∧
      (classifyFile st research true store filePath).1.classification_source =
        "learned" ∧
      (classifyFile st research true store filePath).1.action = c.corrected_action ∧
      (classifyFile st research true store filePath).1.domain = c.corrected_domain ∧
      (classifyFile st research true store filePath).1.subfolder =
        c.corrected_subfolder ∧
      (classifyFile st research true store filePath).2 = [c.id]) ∧
    ((∀ p, c.filename_pattern = some p →
        p = "" ∨ research false p (basename filePath) = false) →
      2 ≤ (c.keywords.filter
        (fun kw => strIn (strLower kw) (strLower (basename filePath)))).length →
      (classifyFile st research true store filePath).1.confidence = mkRat 85 100 ∧
      (classifyFile st research true store filePath).1.classification_source =
        "learned" ∧
      (classifyFile st research true store filePath).1.action = c.corrected_action ∧
      (classifyFile st research true store filePath).1.domain = c.corrected_domain ∧
      (classifyFile st research true store filePath).1.subfolder =
        c.corrected_subfolder ∧
      (classifyFile st research true store filePath).2 = [c.id]) := by
  constructor
  · intro p hp hne hre
    have hm : correctionMatch research (basename filePath) c = some .regex := by
      unfold correctionMatch
      rw [hp]
      simp [hne, hre]
    rw [classifyFile_correction_hit st research store filePath pre post c hnoign
      hrel hpre .regex hm]
    exact ⟨rfl, rfl, rfl, rfl, rfl, rfl⟩
  · intro hnore hkw
    have hre : (match c.filename_pattern with
        | some p => p ≠ "" && research false p (basename filePath)
        | none => false) = false := by
      cases hp : c.filename_pattern with
      | none => rfl
      | some p =>
          rcases hnore p hp with h | h
          · simp [h]
          · simp [h]
    have hkne : c.keywords.isEmpty = false := by
      cases hk : c.keywords with
      | nil => rw [hk] at hkw; simp at hkw
      | cons k ks => simp
    have hm : correctionMatch research (basename filePath) c = some .keyw := by
      unfold correctionMatch
      rw [hre]
      simp [hkne, hkw]
    rw [classifyFile_correction_hit st research store filePath pre post c hnoign
      hrel hpre .keyw hm]
    exact ⟨rfl, rfl, rfl, rfl, rfl, rfl⟩

def c6Research : Bool → String → String → Bool := fun _ p s => strIn p s

def c6Corr : Correction :=
  { id := "c1", original_filename := "inv.pdf", original_action := .skip,
    corrected_action := .move, corrected_domain := some .finance,
    corrected_subfolder := some "Documents",
    user_feedback := "invoices go to Finance",
    filename_pattern := some "invoice" }

/-- C6 witness: the Correction with pattern "invoice" applied to
`invoice_2024.pdf` yields a learned move-to-Finance Plan at 0.95 and a
single usage increment. -/
theorem c6_learned_correction_confidences_witness :
    shouldIgnore defaultSettings (basename "/inbox/invoice_2024.pdf") = false ∧
    getRelevantCorrections c6Research [c6Corr]
        (basename "/inbox/invoice_2024.pdf") 5 = [] ++ c6Corr :: [] ∧
    ((classifyFile defaultSettings c6Research true [c6Corr]
        "/inbox/invoice_2024.pdf").1.confidence = mkRat 95 100 ∧
      (classifyFile defaultSettings c6Research true [c6Corr]
        "/inbox/invoice_2024.pdf").1.classification_source = "learned" ∧
      (classifyFile defaultSettings c6Research true [c6Corr]
        "/inbox/invoice_2024.pdf").1.action = c6Corr.corrected_action ∧
      (classifyFile defaultSettings c6Research true [c6Corr]
        "/inbox/invoice_2024.pdf").1.domain = c6Corr.corrected_domain ∧
      (classifyFile defaultSettings c6Research true [c6Corr]
        "/inbox/invoice_2024.pdf").1.subfolder = c6Corr.corrected_subfolder ∧
      (classifyFile defaultSettings c6Research true [c6Corr]
        "/inbox/invoice_2024.pdf").2 = [c6Corr.id]) :=
  ⟨rfl, by decide,
    (c6_learned_correction_confidences defaultSettings c6Research [c6Corr]
        "/inbox/invoice_2024.pdf" [] [] c6Corr rfl (by decide)
        (fun c' hc' => absurd hc' (List.not_mem_nil c'))).1
      "invoice" rfl (by decide) rfl⟩

/-! ## Claim C8 -/

def c8Files : List String := ["/t/a.pdf", "/t/b.pdf", "/t/c.pdf"]

def c8Content : String :=
  "[\x7b\"index\": 1, \"action\": \"skip\", \"category\": \"unknown\", \"confidence\": 0.5, \"reasoning\": \"a\"\x7d, \x7b\"index\": 2, \"action\": \"skip\", \"category\": \"unknown\", \"confidence\": 0.5, \"reasoning\": \"b\"\x7d, \x7b\"index\": 3, \"action\": \"sk"

/-- C8: when the batch response fails `json.loads`, the builder salvages by
truncating at the last complete array element (the last `"\x7d,"`, keeping
`content[:i+1]` and closing the array) and re-parsing; the original parse
error propagates only when that salvage fails (or no cut point exists); and
a truncated response for a 3-item batch salvages into 2 Plans — strictly
fewer than the batch size — instead of raising. -/
theorem c8_truncated_batch_salvage :
    (∀ content v, jsonParse content = .ok v → salvageParse content = .ok v) ∧
    (∀ content e i v, jsonParse content = .error e →
      rfindIdx content "\x7d," = some i → 0 < i →
      jsonParse (strTake content (i + 1) ++ "]") = .ok v →
      salvageParse content = .ok v) ∧
    (∀ content e i e2, jsonParse content = .error e →
      rfindIdx content "\x7d," = some i → 0 < i →
      jsonParse (strTake content (i + 1) ++ "]") = .error e2 →
      salvageParse content = .error e) ∧
    (∀ content e, jsonParse content = .error e → rfindIdx content "\x7d," = none →
      salvageParse content = .error e) ∧
    (jsonParse (stripFencesBatch c8Content) = .error "Expecting value" ∧
      (classifyBatchWithAI defaultSettings c8Files (.ok c8Content)).map
        (fun p => (p.source_path, p.action)) =
        [("/t/a.pdf", .skip), ("/t/b.pdf", .skip)] ∧
      (classifyBatchWithAI defaultSettings c8Files (.ok c8Content)).length <
        c8Files.length) := by
  refine ⟨?_, ?_, ?_, ?_, rfl, by decide, by decide⟩
  · intro content v h
    unfold salvageParse
    rw [h]
  · intro content e i v h1 h2 h3 h4
    unfold salvageParse
    rw [h1]
    dsimp only
    rw [h2]
    dsimp only
    rw [if_pos h3, h4]
  · intro content e i e2 h1 h2 h3 h4
    unfold salvageParse
    rw [h1]
    dsimp only
    rw [h2]
    dsimp only
    rw [if_pos h3, h4]
  · intro content e h1 h2
    unfold salvageParse
    rw [h1]
    dsimp only
    rw [h2]

/-- C8 witness: a well-formed response parses without salvage, and a
response with no complete element re-raises the original error. -/
theorem c8_truncated_batch_salvage_witness :
    jsonParse "[]" = .ok (.arr []) ∧ salvageParse "[]" = .ok (.arr []) ∧
    jsonParse "nope" = .error "Expecting value" ∧
    rfindIdx "nope" "\x7d," = none ∧
    salvageParse "nope" = .error "Expecting value" :=
  ⟨rfl, c8_truncated_batch_salvage.1 "[]" (.arr []) rfl, rfl, by decide,
    c8_truncated_batch_salvage.2.2.2.1 "nope" "Expecting value" rfl (by decide)⟩

end ProductivityService
